import Mathlib

/-!
Shallow embedding of the IsItAPowerLaw multi-distribution analysis core.

Numbers are modelled as rationals. The transcendental primitives the
JavaScript code takes from `Math` (`log`, `log10`, `exp`, `sqrt`, `PI`, and
the normal CDF / inverse-CDF approximations built on them) are abstracted as
an arbitrary parameter record `RealFns`, so every theorem below holds for any
implementation of those primitives. Thrown JavaScript `Error`s are modelled
as `Except Err` with one constructor per error kind of the design's taxonomy.
-/

namespace IsItAPowerLaw

/-- Error kinds raised by the analysis core. The JavaScript code throws
`Error` objects carrying messages; the embedding keeps the kind (and the
validator's message for `validationFailed`). -/
inductive Err where
  | emptyInput
  | insufficientData
  | degenerateInput
  | insufficientValidData
  | invalidArgument
  | lengthMismatch
  | validationFailed (message : String)
  | analyzerNotFound
  | noAnalyzersConfigured
  | missingIdentity
  deriving DecidableEq

/-- Abstract real-valued primitives used by the code. The JS implementation
computes them in floating point (`Math.log10`, `Math.log`, `Math.exp`,
`Math.sqrt`, `Math.pow(10, ·)`, the Abramowitz-Stegun `normalCDF` and the
Beasley-Springer-Moro `normalInverseCDF`, and `Math.PI`); the theorems hold
for an arbitrary choice. -/
structure RealFns where
  log10 : ℚ → ℚ
  ln : ℚ → ℚ
  exp : ℚ → ℚ
  sqrt : ℚ → ℚ
  pow10 : ℚ → ℚ
  normCDF : ℚ → ℚ
  normInvCDF : ℚ → ℚ
  pi : ℚ

/-- A concrete instantiation of the primitives, used for closed witness
statements (the witnessed facts do not depend on the choice). -/
def wFns : RealFns :=
  { log10 := id, ln := id, exp := id, sqrt := id, pow10 := id,
    normCDF := id, normInvCDF := id, pi := 0 }

/-- A pipeline data point. `value` and `frequency` are the parsed
observation; `probability`, `cdf` and `ccdf` are filled in (overwritten) by
`calculateCCDF`, mirroring the JS spread `{...item, probability: ...}`.
A raw observation is modelled with the derived fields at their default 0. -/
structure DataPoint where
  value : ℚ
  frequency : ℚ
  probability : ℚ := 0
  cdf : ℚ := 0
  ccdf : ℚ := 0
  deriving DecidableEq, Inhabited

/-- `data.reduce((sum, item) => sum + item.frequency, 0)` from
`calculateCCDF` (`src/dataProcessor.js`). -/
def totalObservationsOf (data : List DataPoint) : ℚ :=
  (data.map (·.frequency)).sum

/-- The running CDF/CCDF pass of `calculateCCDF` (`src/dataProcessor.js`,
lines 92-100): `cumulativeProbability` starts at `acc`, and each point
receives `cdf = cumulativeProbability` and `ccdf = 1 - cumulativeProbability`
after the accumulator absorbs its `probability`. -/
def cumulate (acc : ℚ) : List DataPoint → List DataPoint
  | [] => []
  | item :: rest =>
      let c := acc + item.probability
      { item with cdf := c, ccdf := 1 - c } :: cumulate c rest

/-- `calculateCCDF` from `src/dataProcessor.js` (lines 78-103): rejects an
empty sequence, computes `probability = frequency / totalObservations` for
each point, then the running `cdf`/`ccdf`. -/
def calculateCCDF (data : List DataPoint) : Except Err (List DataPoint) :=
  if data.isEmpty then .error .emptyInput
  else
    let totalObservations := totalObservationsOf data
    let dataWithProbability :=
      data.map fun item => { item with probability := item.frequency / totalObservations }
    .ok (cumulate 0 dataWithProbability)

/-- The `dataWithProbability` intermediate list of `calculateCCDF`, named so
the theorems below can refer to it. -/
def withProbability (data : List DataPoint) : List DataPoint :=
  data.map fun item =>
    { item with probability := item.frequency / totalObservationsOf data }

/-- `Math.abs` (used by the ranking comparator and by the regression
degeneracy guard). -/
def jsAbs (x : ℚ) : ℚ := if x < 0 then -x else x

/-- Goodness-of-fit summary. Every concrete analyzer produces these fields
(plus family-specific ones); they are the fields the engine-level utilities
(`rankResults`, `getBestFit`, `standardizeResult` and the base-class defaults
`isGoodFit`/`getConfidenceScore`) read. -/
structure StdGoF where
  rSquared : ℚ
  confidenceScore : ℚ
  aic : ℚ
  bic : ℚ
  ksSignificant : Bool
  deriving DecidableEq, Inhabited

/-- A standardized analysis result (`DistributionUtils.standardizeResult`,
`src/distributionAnalyzer.js` lines 193-208). The fields kept are the ones
the ranking, best-fit and engine logic read; `parameters`,
`theoreticalValues`, `plotData`, `description` and the `summary` string are
presentation payload not examined by any claim. -/
structure StdResult where
  distributionType : String
  displayName : String
  confidenceScore : ℚ
  goodnessOfFit : StdGoF
  isGoodFit : Bool
  validDataPoints : ℚ
  originalDataPoints : ℚ
  deriving DecidableEq, Inhabited

/-- Insertion into a list ordered by a JS-style comparator (a negative
comparator value means the first argument sorts earlier). -/
def orderedInsert {α : Type} (cmp : α → α → ℚ) (a : α) : List α → List α
  | [] => [a]
  | b :: l => if cmp a b ≤ 0 then a :: b :: l else b :: orderedInsert cmp a l

/-- Stable comparator sort modelling `Array.prototype.sort(comparator)`
(ECMAScript sorts are stable; the comparator used by `rankResults` is not
transitive in general, so the adjacency and permutation theorems below state
the guaranteed behavior). -/
def sortWith {α : Type} (cmp : α → α → ℚ) (l : List α) : List α :=
  l.foldr (orderedInsert cmp) []

/-- The comparator of `DistributionUtils.rankResults`
(`src/distributionAnalyzer.js` lines 215-229). The JS guard
`a.goodnessOfFit.aic && b.goodnessOfFit.aic` is truthiness: an AIC of
exactly 0 is falsy and skips the AIC tie-break. -/
def rankCompare (a b : StdResult) : ℚ :=
  let confidenceDiff := b.confidenceScore - a.confidenceScore
  if 1/20 < jsAbs confidenceDiff then confidenceDiff
  else if a.goodnessOfFit.aic ≠ 0 ∧ b.goodnessOfFit.aic ≠ 0 then
    a.goodnessOfFit.aic - b.goodnessOfFit.aic
  else b.validDataPoints - a.validDataPoints

/-- `DistributionUtils.rankResults`: sorts standardized results with
`rankCompare` (best first). -/
def rankResults (results : List StdResult) : List StdResult :=
  sortWith rankCompare results

/-- `DistributionUtils.getBestFit` (`src/distributionAnalyzer.js` lines
236-242): re-ranks, and returns the top entry only when its `isGoodFit`
flag is set. -/
def getBestFit (results : List StdResult) : Option StdResult :=
  match rankResults results with
  | [] => none
  | best :: _ => if best.isGoodFit then some best else none

/-- `a` may legitimately stand (weakly) before `b` under the ranking
comparator. -/
def rankedBefore (a b : StdResult) : Prop := rankCompare a b ≤ 0

instance (a b : StdResult) : Decidable (rankedBefore a b) :=
  inferInstanceAs (Decidable (rankCompare a b ≤ 0))

/-- Confidence 0.91, AIC exactly 0, 1 valid point. -/
def resultAicZero : StdResult :=
  { distributionType := "powerLaw", displayName := "Power Law",
    confidenceScore := 91/100,
    goodnessOfFit := { rSquared := 91/100, confidenceScore := 91/100,
                       aic := 0, bic := 0, ksSignificant := false },
    isGoodFit := true, validDataPoints := 1, originalDataPoints := 1 }

/-- Confidence 0.92, AIC 100, 5 valid points. -/
def resultAicHundred : StdResult :=
  { distributionType := "logNormal", displayName := "Log-Normal",
    confidenceScore := 92/100,
    goodnessOfFit := { rSquared := 92/100, confidenceScore := 92/100,
                       aic := 100, bic := 100, ksSignificant := false },
    isGoodFit := true, validDataPoints := 5, originalDataPoints := 5 }

/-- Confidence 0.91, AIC 50, 1 valid point (equal-AIC stability example). -/
def resultEqAicFew : StdResult :=
  { distributionType := "powerLaw", displayName := "Power Law",
    confidenceScore := 91/100,
    goodnessOfFit := { rSquared := 91/100, confidenceScore := 91/100,
                       aic := 50, bic := 50, ksSignificant := false },
    isGoodFit := true, validDataPoints := 1, originalDataPoints := 1 }

/-- Confidence 0.92, AIC 50, 5 valid points. -/
def resultEqAicMany : StdResult :=
  { distributionType := "logNormal", displayName := "Log-Normal",
    confidenceScore := 92/100,
    goodnessOfFit := { rSquared := 92/100, confidenceScore := 92/100,
                       aic := 50, bic := 50, ksSignificant := false },
    isGoodFit := true, validDataPoints := 5, originalDataPoints := 5 }

/-- A result whose `isGoodFit` flag is false. -/
def resultBadFit : StdResult :=
  { distributionType := "exponential", displayName := "Exponential",
    confidenceScore := 1/2,
    goodnessOfFit := { rSquared := 1/2, confidenceScore := 1/2,
                       aic := 10, bic := 10, ksSignificant := true },
    isGoodFit := false, validDataPoints := 4, originalDataPoints := 4 }

/-- The spec's worked example: confidence 0.91 with AIC 120. -/
def resultConf91Aic120 : StdResult :=
  { distributionType := "powerLaw", displayName := "Power Law",
    confidenceScore := 91/100,
    goodnessOfFit := { rSquared := 91/100, confidenceScore := 91/100,
                       aic := 120, bic := 120, ksSignificant := false },
    isGoodFit := true, validDataPoints := 5, originalDataPoints := 5 }

/-- The spec's worked example: confidence 0.92 with AIC 100. -/
def resultConf92Aic100 : StdResult :=
  { distributionType := "logNormal", displayName := "Log-Normal",
    confidenceScore := 92/100,
    goodnessOfFit := { rSquared := 92/100, confidenceScore := 92/100,
                       aic := 100, bic := 100, ksSignificant := false },
    isGoodFit := true, validDataPoints := 5, originalDataPoints := 5 }

/-- Result of an analyzer's `validateData` pre-check. -/
structure Validation where
  valid : Bool
  message : String
  warning : Bool := false
  deriving DecidableEq, Inhabited

/-- The part of a raw analyzer result that `standardizeResult` and the
base-class default helpers read (`parameters`, `theoreticalValues` and the
family-specific plot payloads are carried through unexamined). -/
structure RawResult where
  goodnessOfFit : StdGoF
  validDataPoints : ℚ
  originalDataPoints : ℚ
  deriving DecidableEq, Inhabited

/-- The base-class default `isGoodFit` (`src/distributionAnalyzer.js` lines
101-113); none of the three concrete analyzers overrides it. Each JS guard
`gof.rSquared && …` is truthiness, so a field equal to 0 skips its branch;
the `kolmogorovSmirnov` record itself is always truthy here since every
concrete analyzer sets it. -/
def defaultIsGoodFit (g : StdGoF) : Bool :=
  if g.rSquared ≠ 0 ∧ 9/10 < g.rSquared then true
  else if g.confidenceScore ≠ 0 ∧ 9/10 < g.confidenceScore then true
  else if ¬ g.ksSignificant then true
  else false

/-- The base-class default `getConfidenceScore` (`src/distributionAnalyzer.js`
lines 120-133). `rSquared` is always present in this model, so the JS
fallbacks through `confidenceScore`, the KS p-value and 0.5 are dead
branches. -/
def defaultConfidenceScore (g : StdGoF) : ℚ :=
  max 0 (min 1 g.rSquared)

/-- A registered distribution analyzer, seen through the engine: identity
plus the `validateData`/`analyze` behavior. The behavior functions are kept
abstract because the engine-level claims quantify over arbitrary
analyzers. -/
structure Analyzer where
  name : String
  displayName : String
  description : String
  validateData : List DataPoint → Validation
  analyze : List DataPoint → Except Err RawResult

/-- `DistributionUtils.standardizeResult` (`src/distributionAnalyzer.js`
lines 193-208), restricted to the fields kept in `StdResult`. `isGoodFit`
and `confidenceScore` come from the base-class defaults, which no concrete
analyzer overrides. -/
def standardizeResult (rawResult : RawResult) (analyzer : Analyzer) : StdResult :=
  { distributionType := analyzer.name,
    displayName := analyzer.displayName,
    confidenceScore := defaultConfidenceScore rawResult.goodnessOfFit,
    goodnessOfFit := rawResult.goodnessOfFit,
    isGoodFit := defaultIsGoodFit rawResult.goodnessOfFit,
    validDataPoints := rawResult.validDataPoints,
    originalDataPoints := rawResult.originalDataPoints }

/-- One `{analyzer, error}` record of `analyzeMultiple`'s `errors` list. -/
structure EngineError where
  analyzer : String
  error : Err
  deriving DecidableEq

/-- The computable fields of `generateSummary`'s output; the `verdict` and
`recommendation` strings (built with `toFixed` display formatting) are
presentation payload and are elided. -/
structure Summary where
  confidence : ℚ
  analyzersRun : ℕ
  successfulAnalyses : ℕ
  hasErrors : Bool
  errorCount : ℕ
  deriving DecidableEq

/-- `AnalysisEngine.generateSummary` (`src/analysisEngine.js` lines
132-178), computable fields only. -/
def generateSummary (rankedResults : List StdResult)
    (bestFit : Option StdResult) (errors : List EngineError) : Summary :=
  { confidence :=
      match bestFit with
      | some b => b.confidenceScore
      | none =>
          match rankedResults with
          | topResult :: _ => topResult.confidenceScore
          | [] => 0,
    analyzersRun := rankedResults.length + errors.length,
    successfulAnalyses := rankedResults.length,
    hasErrors := decide (0 < errors.length),
    errorCount := errors.length }

/-- `analyzeMultiple`'s return record. -/
structure MultiResult where
  results : List StdResult
  bestFit : Option StdResult
  errors : List EngineError
  summary : Summary
  deriving DecidableEq

/-- The engine state: the `Map` of analyzers (modelled as its
insertion-ordered association list) and the ordered list of default
analyzer names. -/
structure AnalysisEngine where
  analyzers : List (String × Analyzer)
  defaultAnalyzers : List String

/-- A freshly constructed engine. -/
def emptyEngine : AnalysisEngine := { analyzers := [], defaultAnalyzers := [] }

/-- `Map.get`. -/
def mapGet (m : List (String × Analyzer)) (k : String) : Option Analyzer :=
  match m with
  | [] => none
  | (k', v) :: rest => if k' = k then some v else mapGet rest k

/-- `Map.set`: overwrites in place when the key exists (keeping its
insertion position), otherwise appends. -/
def mapSet (m : List (String × Analyzer)) (k : String) (v : Analyzer) :
    List (String × Analyzer) :=
  match m with
  | [] => [(k, v)]
  | (k', v') :: rest =>
      if k' = k then (k, v) :: rest else (k', v') :: mapSet rest k v

/-- `Map.delete`. -/
def mapDelete (m : List (String × Analyzer)) (k : String) :
    List (String × Analyzer) :=
  match m with
  | [] => []
  | (k', v') :: rest =>
      if k' = k then rest else (k', v') :: mapDelete rest k

/-- `AnalysisEngine.registerAnalyzer` (`src/analysisEngine.js` lines 18-28):
rejects a falsy name (modelled as the empty string), overwrites the map
entry, and appends to the defaults list only when `isDefault` is set and the
name is not already a default. -/
def registerAnalyzer (engine : AnalysisEngine) (analyzer : Analyzer)
    (isDefault : Bool := true) : Except Err AnalysisEngine :=
  if analyzer.name = "" then .error .missingIdentity
  else .ok
    { analyzers := mapSet engine.analyzers analyzer.name analyzer,
      defaultAnalyzers :=
        if isDefault ∧ ¬ engine.defaultAnalyzers.contains analyzer.name then
          engine.defaultAnalyzers ++ [analyzer.name]
        else engine.defaultAnalyzers }

/-- `AnalysisEngine.unregisterAnalyzer` (`src/analysisEngine.js` lines
34-40): deletes from the map and splices the first occurrence out of the
defaults list; a no-op when absent. -/
def unregisterAnalyzer (engine : AnalysisEngine) (analyzerName : String) :
    AnalysisEngine :=
  { analyzers := mapDelete engine.analyzers analyzerName,
    defaultAnalyzers := engine.defaultAnalyzers.erase analyzerName }

/-- `AnalysisEngine.getAnalyzer` (returns null — here `none` — if absent). -/
def getAnalyzer (engine : AnalysisEngine) (analyzerName : String) :
    Option Analyzer :=
  mapGet engine.analyzers analyzerName

/-- `AnalysisEngine.analyzeSingle` (`src/analysisEngine.js` lines 65-82):
look up, validate, analyze, standardize; each failure propagates as the
corresponding error kind. -/
def analyzeSingle (engine : AnalysisEngine) (analyzerName : String)
    (data : List DataPoint) : Except Err StdResult :=
  match getAnalyzer engine analyzerName with
  | none => .error .analyzerNotFound
  | some analyzer =>
      let validation := analyzer.validateData data
      if validation.valid = false then
        .error (.validationFailed validation.message)
      else
        match analyzer.analyze data with
        | .error e => .error e
        | .ok rawResult => .ok (standardizeResult rawResult analyzer)

/-- The loop body of `analyzeMultiple`: a success is pushed onto `results`,
a failure is caught and recorded as an `{analyzer, error}` entry. -/
def analyzeStep (engine : AnalysisEngine) (data : List DataPoint)
    (acc : List StdResult × List EngineError) (analyzerName : String) :
    List StdResult × List EngineError :=
  match analyzeSingle engine analyzerName data with
  | .ok result => (acc.1 ++ [result], acc.2)
  | .error e => (acc.1, acc.2 ++ [⟨analyzerName, e⟩])

/-- `AnalysisEngine.analyzeMultiple` (`src/analysisEngine.js` lines 90-123).
`analyzerNames = none` models the JS default `null` resolved to the default
analyzers. In the JS, `rankResults` sorts the `results` array in place, so
the subsequent `getBestFit(results)` call receives the ranked array; the
pure model passes `rankedResults` accordingly. -/
def analyzeMultiple (engine : AnalysisEngine) (data : List DataPoint)
    (analyzerNames : Option (List String) := none) : Except Err MultiResult :=
  let analyzersToUse := analyzerNames.getD engine.defaultAnalyzers
  if analyzersToUse.length = 0 then .error .noAnalyzersConfigured
  else
    let pair := analyzersToUse.foldl (analyzeStep engine data) ([], [])
    let rankedResults := rankResults pair.1
    let bestFit := getBestFit rankedResults
    .ok { results := rankedResults, bestFit := bestFit, errors := pair.2,
          summary := generateSummary rankedResults bestFit pair.2 }

/-- A registration or unregistration call, for stating reachability. -/
inductive EngineOp where
  | registerOp (analyzer : Analyzer) (isDefault : Bool)
  | unregisterOp (name : String)

/-- Applies one call to the engine state; a registration that throws leaves
the state unchanged (the JS throws before mutating). -/
def applyOp (engine : AnalysisEngine) : EngineOp → AnalysisEngine
  | .registerOp a d =>
      match registerAnalyzer engine a d with
      | .ok e' => e'
      | .error _ => engine
  | .unregisterOp n => unregisterAnalyzer engine n

/-- The engine state reached by a sequence of register/unregister calls
starting from a fresh engine. -/
def runOps (ops : List EngineOp) : AnalysisEngine :=
  ops.foldl applyOp emptyEngine

/-- The registration invariant of C10: no duplicate default names, and every
default name is a key of the analyzer map. -/
def engineInv (engine : AnalysisEngine) : Prop :=
  engine.defaultAnalyzers.Nodup ∧
  ∀ n ∈ engine.defaultAnalyzers, (mapGet engine.analyzers n).isSome

/-- A trivially succeeding analyzer, for witnesses. -/
def wAnalyzer : Analyzer :=
  { name := "powerLaw", displayName := "Power Law", description := "",
    validateData := fun _ => { valid := true, message := "" },
    analyze := fun _ => .ok
      { goodnessOfFit := { rSquared := 95/100, confidenceScore := 95/100,
                           aic := 10, bic := 10, ksSignificant := false },
        validDataPoints := 5, originalDataPoints := 5 } }

/-- An analyzer whose `analyze` always throws, for witnesses. -/
def failingAnalyzer : Analyzer :=
  { name := "exponential", displayName := "Exponential", description := "",
    validateData := fun _ => { valid := true, message := "" },
    analyze := fun _ => .error .insufficientValidData }

/-- A one-analyzer engine, for witnesses. -/
def wEngine : AnalysisEngine :=
  { analyzers := [("powerLaw", wAnalyzer)], defaultAnalyzers := ["powerLaw"] }

/-- A two-analyzer engine whose second analyzer always fails, for
witnesses. -/
def wEngine2 : AnalysisEngine :=
  { analyzers := [("powerLaw", wAnalyzer), ("exponential", failingAnalyzer)],
    defaultAnalyzers := ["powerLaw", "exponential"] }

/-- The exponential analyzer's parameter record. -/
structure ExpParams where
  lambda : ℚ
  deriving DecidableEq

/-- `ExponentialAnalyzer.getTheoreticalCCDF` (exponential analyzer source,
lines 191-198): CCDF is 1 for `x < 0`, 1 for every `x` when `lambda = 0`
(the defensive degenerate case), and otherwise `e^(-lambda*x)`. -/
def exponentialGetTheoreticalCCDF (fns : RealFns) (xValues : List ℚ)
    (parameters : ExpParams) : List ℚ :=
  xValues.map fun x =>
    if x < 0 then 1
    else if parameters.lambda = 0 then 1
    else fns.exp (-parameters.lambda * x)

/-- The guarded `log10` utility (`mathUtils.js` lines 8-13): null — here
`none` — when the argument is not strictly positive. -/
def log10 (fns : RealFns) (value : ℚ) : Option ℚ :=
  if value ≤ 0 then none else some (fns.log10 value)

/-- A data point with the power-law log transforms attached
(`addLogTransforms`); the transforms are `none` where undefined. -/
structure LogPoint where
  value : ℚ
  frequency : ℚ
  probability : ℚ
  cdf : ℚ
  ccdf : ℚ
  logValue : Option ℚ
  logCCDF : Option ℚ
  deriving DecidableEq, Inhabited

/-- A log-transformed point that passed `filterValidLogData`; both
transforms are present so they are carried unwrapped. -/
structure ValidLogPoint where
  value : ℚ
  frequency : ℚ
  probability : ℚ
  cdf : ℚ
  ccdf : ℚ
  logValue : ℚ
  logCCDF : ℚ
  deriving DecidableEq, Inhabited

/-- The per-item body of `addLogTransforms` (`mathUtils.js` lines 32-38):
`logValue = log10(value)`, `logCCDF = ccdf > 0 ? log10(ccdf) : null`. -/
def logPointOf (fns : RealFns) (item : DataPoint) : LogPoint :=
  { value := item.value, frequency := item.frequency,
    probability := item.probability, cdf := item.cdf, ccdf := item.ccdf,
    logValue := log10 fns item.value,
    logCCDF := if (0 : ℚ) < item.ccdf then log10 fns item.ccdf else none }

/-- `addLogTransforms` (`mathUtils.js` lines 32-38): a map of `logPointOf`. -/
def addLogTransforms (fns : RealFns) (data : List DataPoint) : List LogPoint :=
  data.map (logPointOf fns)

/-- `filterValidLogData` (`mathUtils.js` lines 45-52): keeps the points whose
two log transforms are non-null (the JS also drops NaN, which has no
counterpart in the rational model); the kept points carry the unwrapped
transforms. -/
def validLogPointOf (item : LogPoint) : Option ValidLogPoint :=
  match item.logValue, item.logCCDF with
  | some lv, some lc =>
      some { value := item.value, frequency := item.frequency,
             probability := item.probability, cdf := item.cdf,
             ccdf := item.ccdf, logValue := lv, logCCDF := lc }
  | _, _ => none

/-- The filter itself, as a `filterMap` of `validLogPointOf`. -/
def filterValidLogData (data : List LogPoint) : List ValidLogPoint :=
  data.filterMap validLogPointOf

/-- An `{x, y}` pair fed to `linearRegression`. -/
structure RegressionPoint where
  x : ℚ
  y : ℚ
  deriving DecidableEq, Inhabited

/-- One per-point residual record of `linearRegression`. -/
structure Residual where
  x : ℚ
  y : ℚ
  predicted : ℚ
  residual : ℚ
  deriving DecidableEq, Inhabited

/-- `linearRegression`'s return record. -/
structure Regression where
  slope : ℚ
  intercept : ℚ
  rSquared : ℚ
  residuals : List Residual
  n : ℕ
  standardError : ℚ
  deriving DecidableEq, Inhabited

/-- The successful branch of `linearRegression`. -/
def regressionOf (fns : RealFns) (data : List RegressionPoint) : Regression :=
  let n : ℚ := data.length
  let sumX := (data.map (·.x)).sum
  let sumY := (data.map (·.y)).sum
  let sumXY := (data.map fun p => p.x * p.y).sum
  let sumXX := (data.map fun p => p.x * p.x).sum
  let denominator := n * sumXX - sumX * sumX
  let slope := (n * sumXY - sumX * sumY) / denominator
  let intercept := (sumY - slope * sumX) / n
  let meanY := sumY / n
  let ssTot := (data.map fun point => (point.y - meanY) ^ 2).sum
  let ssRes := (data.map fun point =>
    (point.y - (slope * point.x + intercept)) ^ 2).sum
  { slope := slope, intercept := intercept,
    rSquared := if 0 < ssTot then 1 - ssRes / ssTot else 1,
    residuals := data.map fun point =>
      { x := point.x, y := point.y, predicted := slope * point.x + intercept,
        residual := point.y - (slope * point.x + intercept) },
    n := data.length,
    standardError := fns.sqrt (ssRes / (n - 2)) }

/-- `linearRegression` (`statisticalTests.js` lines 8-58): ordinary least
squares with the source's guards — fewer than 2 points, and a denominator
smaller than 1e-10 in absolute value (`Math.abs`). The JS also throws on
non-numeric coordinates, which the typed model rules out. `rSquared` is 1 by
convention when the total variance is 0. -/
def linearRegression (fns : RealFns) (data : List RegressionPoint) :
    Except Err Regression :=
  if data.length < 2 then .error .insufficientData
  else
    if jsAbs ((data.length : ℚ) * (data.map fun p => p.x * p.x).sum
        - (data.map (·.x)).sum * (data.map (·.x)).sum) < 1/10^10 then
      .error .degenerateInput
    else
      .ok (regressionOf fns data)

/-- `kolmogorovSmirnovTest`'s return record. -/
structure KSResult where
  statistic : ℚ
  pValue : ℚ
  criticalValue : ℚ
  significant : Bool
  deriving DecidableEq, Inhabited

/-- The successful branch of `kolmogorovSmirnovTest`. -/
def ksResultOf (fns : RealFns) (empiricalCDF theoreticalCDF : List ℚ) :
    KSResult :=
  let n : ℚ := empiricalCDF.length
  let maxDiff := ((empiricalCDF.zip theoreticalCDF).map
    fun p => jsAbs (p.1 - p.2)).foldl max 0
  let lam := maxDiff * fns.sqrt n
  let pValue :=
    if lam < 27/100 then 1
    else if lam < 1 then 2 * fns.exp (-2 * lam * lam)
    else 2 * fns.exp (-2 * lam * lam)
      * (1 - 2 * lam * lam / 3 + 8 * lam ^ 4 / 45)
  { statistic := maxDiff,
    pValue := max 0 (min 1 pValue),
    criticalValue := 136/100 / fns.sqrt n,
    significant := decide (136/100 / fns.sqrt n < maxDiff) }

/-- `kolmogorovSmirnovTest` (`statisticalTests.js` lines 66-110): statistic
is the maximum pointwise absolute difference, the p-value the asymptotic
approximation clamped to [0,1], critical value `1.36/sqrt(n)`. -/
def kolmogorovSmirnovTest (fns : RealFns)
    (empiricalCDF theoreticalCDF : List ℚ) : Except Err KSResult :=
  if empiricalCDF.length ≠ theoreticalCDF.length then .error .lengthMismatch
  else if empiricalCDF.length = 0 then .error .emptyInput
  else
    .ok (ksResultOf fns empiricalCDF theoreticalCDF)

/-- `calculateAIC` (`statisticalTests.js` line 170). -/
def calculateAIC (logLikelihood numParameters : ℚ) : ℚ :=
  2 * numParameters - 2 * logLikelihood

/-- `calculateBIC` (`statisticalTests.js` line 181); `Math.log` is the
abstract `ln`. -/
def calculateBIC (fns : RealFns) (logLikelihood numParameters sampleSize : ℚ) :
    ℚ :=
  fns.ln sampleSize * numParameters - 2 * logLikelihood

/-- The R²-tier label shared verbatim by the three analyzers
(`getConfidenceLevel`). -/
def getConfidenceLevel (rSquared : ℚ) : String :=
  if 98/100 < rSquared then "Very High"
  else if 95/100 < rSquared then "High"
  else if 9/10 < rSquared then "Moderate"
  else if 8/10 < rSquared then "Low"
  else "Very Low"

/-- A valid log-log point with the fitted theoretical values attached. -/
structure PLTheoPoint extends ValidLogPoint where
  theoreticalCCDF : ℚ
  theoreticalLogCCDF : ℚ
  deriving DecidableEq, Inhabited

/-- One endpoint of the plotted regression line. -/
structure LogCoord where
  logValue : ℚ
  logCCDF : ℚ
  deriving DecidableEq, Inhabited

/-- The power-law parameter record. -/
structure PowerLawParams where
  exponent : ℚ
  scalingConstant : ℚ
  slope : ℚ
  intercept : ℚ
  deriving DecidableEq, Inhabited

/-- The power-law goodness-of-fit record. -/
structure PowerLawGoF where
  rSquared : ℚ
  adjustedRSquared : ℚ
  standardError : ℚ
  kolmogorovSmirnov : KSResult
  logLikelihood : ℚ
  aic : ℚ
  bic : ℚ
  confidenceLevel : String
  isPowerLaw : Bool
  confidenceScore : ℚ
  deriving DecidableEq, Inhabited

/-- `PowerLawAnalyzer.calculateLogLikelihood` (`powerLawAnalyzer.js` lines
167-183): sum over the empirical indices of `ln(max(theoreticalCCDF,
1e-10))`; the `take` models the loop bound `empiricalData.length`. -/
def powerLawLogLikelihood (fns : RealFns) (empiricalData : List ValidLogPoint)
    (theoreticalData : List PLTheoPoint) : ℚ :=
  ((theoreticalData.take empiricalData.length).map
    fun t => fns.ln (max t.theoreticalCCDF (1/10^10))).sum

/-- `PowerLawAnalyzer.calculateGoodnessOfFit` (`powerLawAnalyzer.js` lines
122-159). -/
def powerLawCalculateGoodnessOfFit (fns : RealFns)
    (empiricalData : List ValidLogPoint) (theoreticalData : List PLTheoPoint)
    (regression : Regression) : Except Err PowerLawGoF :=
  (kolmogorovSmirnovTest fns (empiricalData.map (·.ccdf))
      (theoreticalData.map (·.theoreticalCCDF))).map fun ksTest =>
      { rSquared := regression.rSquared,
            adjustedRSquared := 1 - (1 - regression.rSquared)
              * ((empiricalData.length : ℚ) - 1)
              / ((empiricalData.length : ℚ) - 2 - 1),
            standardError := regression.standardError,
            kolmogorovSmirnov := ksTest,
            logLikelihood := powerLawLogLikelihood fns empiricalData
              theoreticalData,
            aic := calculateAIC
              (powerLawLogLikelihood fns empiricalData theoreticalData) 2,
            bic := calculateBIC fns
              (powerLawLogLikelihood fns empiricalData theoreticalData) 2
              (empiricalData.length : ℚ),
            confidenceLevel := getConfidenceLevel regression.rSquared,
            isPowerLaw := decide (9/10 < regression.rSquared),
            confidenceScore := regression.rSquared }

/-- The `theoreticalValues` built inside `PowerLawAnalyzer.analyze`. -/
def powerLawTheoreticalValues (fns : RealFns) (regression : Regression)
    (logLogData : List ValidLogPoint) : List PLTheoPoint :=
  logLogData.map fun item =>
    { toValidLogPoint := item,
      theoreticalCCDF := fns.pow10
        (regression.intercept + regression.slope * item.logValue),
      theoreticalLogCCDF :=
        regression.intercept + regression.slope * item.logValue }

/-- `Math.min(...)` over the (non-empty at call sites) log-value list. -/
def minLogXOf (logLogData : List ValidLogPoint) : ℚ :=
  (logLogData.map (·.logValue)).foldl min
    ((logLogData.map (·.logValue)).headD 0)

/-- `Math.max(...)` over the (non-empty at call sites) log-value list. -/
def maxLogXOf (logLogData : List ValidLogPoint) : ℚ :=
  (logLogData.map (·.logValue)).foldl max
    ((logLogData.map (·.logValue)).headD 0)

/-- `PowerLawAnalyzer.analyze`'s return record. -/
structure PowerLawResult where
  distributionName : String
  parameters : PowerLawParams
  goodnessOfFit : PowerLawGoF
  theoreticalValues : List PLTheoPoint
  regressionLine : List LogCoord
  validDataPoints : ℕ
  originalDataPoints : ℕ
  deriving DecidableEq, Inhabited

/-- The record returned by a successful `PowerLawAnalyzer.analyze`, as a
function of the surviving log-log points and the regression and
goodness-of-fit results. -/
def powerLawResultOf (fns : RealFns) (originalLength : ℕ)
    (logLogData : List ValidLogPoint) (regression : Regression)
    (goodnessOfFit : PowerLawGoF) : PowerLawResult :=
  { distributionName := "powerLaw",
    parameters :=
      { exponent := -regression.slope,
        scalingConstant := fns.pow10 regression.intercept,
        slope := regression.slope,
        intercept := regression.intercept },
    goodnessOfFit := goodnessOfFit,
    theoreticalValues := powerLawTheoreticalValues fns regression logLogData,
    regressionLine :=
      [ { logValue := minLogXOf logLogData,
          logCCDF := regression.intercept + regression.slope
            * minLogXOf logLogData },
        { logValue := maxLogXOf logLogData,
          logCCDF := regression.intercept + regression.slope
            * maxLogXOf logLogData } ],
    validDataPoints := logLogData.length,
    originalDataPoints := originalLength }

/-- `PowerLawAnalyzer.analyze` (`powerLawAnalyzer.js` lines 44-113). The
JS `const` bindings are inlined, and exception propagation from the two
statistical helpers is `Except` sequencing; `α = -slope`,
`C = 10^intercept`. -/
def powerLawAnalyze (fns : RealFns) (dataWithCCDF : List DataPoint) :
    Except Err PowerLawResult :=
  if dataWithCCDF.isEmpty then .error .emptyInput
  else if (filterValidLogData (addLogTransforms fns dataWithCCDF)).length < 3
  then .error .insufficientValidData
  else
    (linearRegression fns
        ((filterValidLogData (addLogTransforms fns dataWithCCDF)).map
          fun item => RegressionPoint.mk item.logValue item.logCCDF)).bind
      fun regression =>
        (powerLawCalculateGoodnessOfFit fns
            (filterValidLogData (addLogTransforms fns dataWithCCDF))
            (powerLawTheoreticalValues fns regression
              (filterValidLogData (addLogTransforms fns dataWithCCDF)))
            regression).map
          fun goodnessOfFit =>
            powerLawResultOf fns dataWithCCDF.length
              (filterValidLogData (addLogTransforms fns dataWithCCDF))
              regression goodnessOfFit

/-- A concrete 3-point dataset on which `powerLawAnalyze` succeeds under
`wFns` (distinct values, positive CCDFs). -/
def plData : List DataPoint :=
  [⟨1, 1, 0, 0, 5⟩, ⟨2, 1, 0, 0, 4⟩, ⟨3, 1, 0, 0, 3⟩]

/-- `mean` (`mathUtils.js` lines 128-133): throws on an empty array. -/
def mean (values : List ℚ) : Except Err ℚ :=
  if values.length = 0 then .error .emptyInput
  else .ok (values.sum / (values.length : ℚ))

/-- `standardDeviation` (`mathUtils.js` lines 141-151): sample standard
deviation divides by `n - 1` when `sample` is set; `Math.sqrt` is the
abstract `sqrt`. -/
def standardDeviation (fns : RealFns) (values : List ℚ) (sample : Bool) :
    Except Err ℚ :=
  if values.length = 0 then .error .emptyInput
  else
    .ok (fns.sqrt ((values.map fun val =>
        (val - values.sum / (values.length : ℚ)) ^ 2).sum
      / ((values.length : ℚ) - if sample then 1 else 0)))

/-- `normalInverseCDF` (`mathUtils.js` lines 93-121): throws unless
`0 < p < 1`; the Beasley-Springer-Moro rational approximation itself is the
abstract `normInvCDF` primitive. -/
def normalInverseCDF (fns : RealFns) (p : ℚ) : Except Err ℚ :=
  if p ≤ 0 ∨ 1 ≤ p then .error .invalidArgument
  else .ok (fns.normInvCDF p)

/-- A data point with the natural-log transform attached
(`LogNormalAnalyzer.addLnTransforms`); `none` where undefined. -/
structure LnPoint where
  value : ℚ
  frequency : ℚ
  probability : ℚ
  cdf : ℚ
  ccdf : ℚ
  lnValue : Option ℚ
  deriving DecidableEq, Inhabited

/-- The per-item body of `addLnTransforms` (`logNormalAnalyzer.js` lines
122-127): `lnValue = value > 0 ? Math.log(value) : null`. -/
def lnPointOf (fns : RealFns) (item : DataPoint) : LnPoint :=
  { value := item.value, frequency := item.frequency,
    probability := item.probability, cdf := item.cdf, ccdf := item.ccdf,
    lnValue := if (0 : ℚ) < item.value then some (fns.ln item.value)
      else none }

/-- `addLnTransforms` (`logNormalAnalyzer.js` lines 122-127). -/
def addLnTransforms (fns : RealFns) (data : List DataPoint) : List LnPoint :=
  data.map (lnPointOf fns)

/-- A log-transformed point that passed the `lnValue !== null` filter of
`analyze` (NaN has no counterpart in the rational model). -/
structure ValidLnPoint where
  value : ℚ
  frequency : ℚ
  probability : ℚ
  cdf : ℚ
  ccdf : ℚ
  lnValue : ℚ
  deriving DecidableEq, Inhabited

/-- The per-item test of the `analyze` filter, carrying the unwrapped
transform. -/
def validLnPointOf (item : LnPoint) : Option ValidLnPoint :=
  match item.lnValue with
  | some lv =>
      some { value := item.value, frequency := item.frequency,
             probability := item.probability, cdf := item.cdf,
             ccdf := item.ccdf, lnValue := lv }
  | none => none

/-- The `validLnData` filter of `analyze` (`logNormalAnalyzer.js` lines
73-75). -/
def filterValidLnData (data : List LnPoint) : List ValidLnPoint :=
  data.filterMap validLnPointOf

/-- The log-normal parameter record `{mu, sigma}`. -/
structure LogNormalParams where
  mu : ℚ
  sigma : ℚ
  deriving DecidableEq, Inhabited

/-- `LogNormalAnalyzer.getTheoreticalCCDF` (`logNormalAnalyzer.js` lines
218-225): 1 for `x ≤ 0`, else `1 - Φ((ln x - μ)/σ)`. -/
def logNormalGetTheoreticalCCDF (fns : RealFns) (xValues : List ℚ)
    (parameters : LogNormalParams) : List ℚ :=
  xValues.map fun x =>
    if x ≤ 0 then 1
    else 1 - fns.normCDF ((fns.ln x - parameters.mu) / parameters.sigma)

/-- A valid ln point with the theoretical CCDF attached (`analyze` lines
91-94, which spread the item and take element `[0]` of
`getTheoreticalCCDF([value])`). -/
structure LnTheoPoint extends ValidLnPoint where
  theoreticalCCDF : ℚ
  deriving DecidableEq, Inhabited

/-- The `theoreticalValues` built inside `LogNormalAnalyzer.analyze`. -/
def lnTheoreticalValues (fns : RealFns) (parameters : LogNormalParams)
    (validLnData : List ValidLnPoint) : List LnTheoPoint :=
  validLnData.map fun item =>
    { toValidLnPoint := item,
      theoreticalCCDF :=
        (logNormalGetTheoreticalCCDF fns [item.value] parameters).headD 0 }

/-- One entry of the normal-probability-plot data (`logNormalAnalyzer.js`
lines 143-154). -/
structure ProbPlotPoint where
  lnValue : ℚ
  theoreticalQuantile : ℚ
  empiricalQuantile : ℚ
  originalValue : ℚ
  ccdf : ℚ
  deriving DecidableEq, Inhabited

/-- The Blom plotting position `(i + 1 - 3/8) / (n + 1/4)` used at line 141. -/
def blomQuantile (n i : ℕ) : ℚ :=
  ((i : ℚ) + 1 - 3/8) / ((n : ℚ) + 1/4)

/-- The body of the plot-data map (`logNormalAnalyzer.js` lines 139-154):
the theoretical quantile goes through the throwing `normalInverseCDF`. -/
def probPlotPointOf (fns : RealFns) (n : ℕ) (p : ℕ × ValidLnPoint) :
    Except Err ProbPlotPoint :=
  (normalInverseCDF fns (blomQuantile n p.1)).map fun tq =>
    { lnValue := p.2.lnValue, theoreticalQuantile := tq,
      empiricalQuantile := blomQuantile n p.1,
      originalValue := p.2.value, ccdf := p.2.ccdf }

/-- Error-propagating map, the `Except` embedding of a JS loop whose body
can throw. -/
def mapExcept {α β : Type} (f : α → Except Err β) : List α → Except Err (List β)
  | [] => .ok []
  | a :: l => (f a).bind fun b => (mapExcept f l).map fun bs => b :: bs

/-- The `[...data].sort((a, b) => a.lnValue - b.lnValue)` of line 136. -/
def lnSorted (data : List ValidLnPoint) : List ValidLnPoint :=
  sortWith (fun a b => a.lnValue - b.lnValue) data

/-- `generateNormalProbabilityPlot`'s return record (lines 164-170). -/
structure NormalProbPlot where
  plotData : List ProbPlotPoint
  regression : Regression
  estimatedMu : ℚ
  estimatedSigma : ℚ
  rSquared : ℚ
  deriving DecidableEq, Inhabited

/-- `LogNormalAnalyzer.generateNormalProbabilityPlot`
(`logNormalAnalyzer.js` lines 134-171): sort by `lnValue`, attach Blom
quantiles, regress `lnValue` on the theoretical quantiles. -/
def generateNormalProbabilityPlot (fns : RealFns)
    (data : List ValidLnPoint) : Except Err NormalProbPlot :=
  (mapExcept (probPlotPointOf fns (lnSorted data).length)
      (lnSorted data).enum).bind fun plotData =>
    (linearRegression fns (plotData.map fun point =>
        RegressionPoint.mk point.theoreticalQuantile point.lnValue)).map
      fun regression =>
        { plotData := plotData, regression := regression,
          estimatedMu := regression.intercept,
          estimatedSigma := regression.slope,
          rSquared := regression.rSquared }

/-- `LogNormalAnalyzer.calculateLogLikelihood` (`logNormalAnalyzer.js`
lines 340-358): frequency-weighted log-normal log-PDF over the
positive-value points. -/
def logNormalLogLikelihood (fns : RealFns) (data : List ValidLnPoint)
    (parameters : LogNormalParams) : ℚ :=
  (data.map fun item =>
    if (0 : ℚ) < item.value then
      (-(fns.ln item.value) - fns.ln parameters.sigma
          - 1/2 * fns.ln (2 * fns.pi)
          - 1/2 * ((fns.ln item.value - parameters.mu) / parameters.sigma)
            * ((fns.ln item.value - parameters.mu) / parameters.sigma))
        * item.frequency
    else 0).sum

/-- The log-normal goodness-of-fit record. -/
structure LogNormalGoF where
  rSquared : ℚ
  normalProbabilityR2 : ℚ
  adjustedRSquared : ℚ
  kolmogorovSmirnov : KSResult
  logLikelihood : ℚ
  aic : ℚ
  bic : ℚ
  confidenceLevel : String
  isLogNormal : Bool
  confidenceScore : ℚ
  deriving DecidableEq, Inhabited

/-- `LogNormalAnalyzer.calculateGoodnessOfFit` (`logNormalAnalyzer.js`
lines 282-332): the KS test runs on the CCDF columns, but every R²-derived
field is the normal-probability-plot regression R². -/
def logNormalCalculateGoodnessOfFit (fns : RealFns)
    (empiricalData : List ValidLnPoint) (theoreticalData : List LnTheoPoint)
    (parameters : LogNormalParams) : Except Err LogNormalGoF :=
  (kolmogorovSmirnovTest fns (empiricalData.map (·.ccdf))
      (theoreticalData.map (·.theoreticalCCDF))).bind fun ksTest =>
    (generateNormalProbabilityPlot fns empiricalData).map fun normalProbPlot =>
      { rSquared := normalProbPlot.rSquared,
        normalProbabilityR2 := normalProbPlot.rSquared,
        adjustedRSquared := 1 - (1 - normalProbPlot.rSquared)
          * ((empiricalData.length : ℚ) - 1)
          / ((empiricalData.length : ℚ) - 2 - 1),
        kolmogorovSmirnov := ksTest,
        logLikelihood := logNormalLogLikelihood fns empiricalData parameters,
        aic := calculateAIC
          (logNormalLogLikelihood fns empiricalData parameters) 2,
        bic := calculateBIC fns
          (logNormalLogLikelihood fns empiricalData parameters) 2
          (empiricalData.length : ℚ),
        confidenceLevel := getConfidenceLevel normalProbPlot.rSquared,
        isLogNormal := decide ((9 : ℚ)/10 < normalProbPlot.rSquared),
        confidenceScore := normalProbPlot.rSquared }

/-- `LogNormalAnalyzer.analyze`'s return record. -/
structure LogNormalResult where
  distributionName : String
  parameters : LogNormalParams
  goodnessOfFit : LogNormalGoF
  theoreticalValues : List LnTheoPoint
  normalProbabilityPlot : NormalProbPlot
  validDataPoints : ℕ
  originalDataPoints : ℕ
  deriving DecidableEq, Inhabited

/-- `LogNormalAnalyzer.analyze` (`logNormalAnalyzer.js` lines 64-116):
`μ = mean(lnValues)`, `σ = sample standard deviation(lnValues)`; the JS
`const` bindings are inlined and exception propagation is `Except`
sequencing. -/
def logNormalAnalyze (fns : RealFns) (dataWithCCDF : List DataPoint) :
    Except Err LogNormalResult :=
  if dataWithCCDF.isEmpty then .error .emptyInput
  else if (filterValidLnData (addLnTransforms fns dataWithCCDF)).length < 3
  then .error .insufficientValidData
  else
    (mean ((filterValidLnData (addLnTransforms fns dataWithCCDF)).map
        fun item => item.lnValue)).bind fun mu =>
      (standardDeviation fns
          ((filterValidLnData (addLnTransforms fns dataWithCCDF)).map
            fun item => item.lnValue) true).bind fun sigma =>
        (logNormalCalculateGoodnessOfFit fns
            (filterValidLnData (addLnTransforms fns dataWithCCDF))
            (lnTheoreticalValues fns ⟨mu, sigma⟩
              (filterValidLnData (addLnTransforms fns dataWithCCDF)))
            ⟨mu, sigma⟩).bind fun goodnessOfFit =>
          (generateNormalProbabilityPlot fns
              (filterValidLnData (addLnTransforms fns dataWithCCDF))).map
            fun normalProbabilityPlot =>
              { distributionName := "logNormal",
                parameters := ⟨mu, sigma⟩,
                goodnessOfFit := goodnessOfFit,
                theoreticalValues := lnTheoreticalValues fns ⟨mu, sigma⟩
                  (filterValidLnData (addLnTransforms fns dataWithCCDF)),
                normalProbabilityPlot := normalProbabilityPlot,
                validDataPoints :=
                  (filterValidLnData (addLnTransforms fns dataWithCCDF)).length,
                originalDataPoints := dataWithCCDF.length }

/-- A concrete 3-point dataset on which `logNormalAnalyze` succeeds under
`wFns`. -/
def lnData : List DataPoint :=
  [⟨1, 1, 0, 0, 5⟩, ⟨2, 1, 0, 0, 4⟩, ⟨3, 1, 0, 0, 3⟩]

end IsItAPowerLaw

namespace IsItAPowerLaw

theorem cumulate_length (acc : ℚ) (l : List DataPoint) :
    (cumulate acc l).length = l.length := by
  induction l generalizing acc with
  | nil => rfl
  | cons x xs ih => simpa [cumulate] using ih _

theorem cumulate_cons (acc : ℚ) (x : DataPoint) (l : List DataPoint) :
    cumulate acc (x :: l) =
      { x with cdf := acc + x.probability,
               ccdf := 1 - (acc + x.probability) } ::
        cumulate (acc + x.probability) l := rfl

theorem cumulate_get (l : List DataPoint) (acc : ℚ) (i : ℕ)
    (hi : i < (cumulate acc l).length) (hl : i < l.length) :
    (cumulate acc l).get ⟨i, hi⟩ =
      { l.get ⟨i, hl⟩ with
        cdf := acc + ((l.take (i+1)).map (·.probability)).sum,
        ccdf := 1 - (acc + ((l.take (i+1)).map (·.probability)).sum) } := by
  induction l generalizing acc i with
  | nil => cases hl
  | cons x xs ih =>
      cases i with
      | zero => simp [cumulate_cons]
      | succ j =>
          have hj : j < xs.length := by simpa using hl
          have hj' : j < (cumulate (acc + x.probability) xs).length := by
            rw [cumulate_length]; exact hj
          have ihx := ih (acc + x.probability) j hj' hj
          have hget : (cumulate acc (x :: xs)).get ⟨j+1, hi⟩ =
              (cumulate (acc + x.probability) xs).get ⟨j, hj'⟩ := rfl
          rw [hget, ihx]
          simp only [List.get_cons_succ, List.take_succ_cons, List.map_cons,
            List.sum_cons, DataPoint.mk.injEq]
          refine ⟨trivial, trivial, trivial, by ring, by ring⟩

theorem cumulate_cdf_add_ccdf (l : List DataPoint) (acc : ℚ) :
    ∀ p ∈ cumulate acc l, p.cdf + p.ccdf = 1 := by
  induction l generalizing acc with
  | nil => intro p hp; cases hp
  | cons x xs ih =>
      intro p hp
      rcases List.mem_cons.mp hp with h | h
      · subst h; simp
      · exact ih _ p h

theorem cumulate_getLast? (l : List DataPoint) (acc : ℚ) (p : DataPoint)
    (h : (cumulate acc l).getLast? = some p) :
    p.cdf = acc + (l.map (·.probability)).sum ∧
    p.ccdf = 1 - (acc + (l.map (·.probability)).sum) := by
  induction l generalizing acc with
  | nil => simp [cumulate] at h
  | cons x xs ih =>
      cases xs with
      | nil =>
          simp only [cumulate, List.getLast?_singleton, Option.some.injEq] at h
          subst h
          constructor <;> simp
      | cons y ys =>
          have h' : (cumulate (acc + x.probability) (y :: ys)).getLast? = some p := by
            rw [cumulate_cons, cumulate_cons, List.getLast?_cons_cons,
              ← cumulate_cons] at h
            exact h
          have := ih (acc + x.probability) h'
          constructor
          · rw [this.1]; simp; ring
          · rw [this.2]; simp; ring

/-- Partial sums of a list of non-negative rationals are monotone in the
prefix length. -/
theorem sum_take_mono (l : List ℚ) (h : ∀ x ∈ l, 0 ≤ x) {i j : ℕ}
    (hij : i ≤ j) : (l.take i).sum ≤ (l.take j).sum := by
  have h1 : (l.take j).take i = l.take i := by
    rw [List.take_take, min_eq_left hij]
  have h2 : 0 ≤ ((l.take j).drop i).sum := by
    refine List.sum_nonneg fun x hx => ?_
    exact h x (List.mem_of_mem_take (List.mem_of_mem_drop hx))
  calc (l.take i).sum = ((l.take j).take i).sum := by rw [h1]
    _ ≤ ((l.take j).take i).sum + ((l.take j).drop i).sum := by linarith
    _ = (l.take j).sum := by rw [← List.sum_append, List.take_append_drop]

theorem sum_map_div (l : List DataPoint) (t : ℚ) :
    (l.map fun p => p.frequency / t).sum = (l.map (·.frequency)).sum / t := by
  induction l with
  | nil => simp
  | cons x xs ih => simp [ih, add_div]

theorem totalObservations_pos (data : List DataPoint) (hne : data ≠ [])
    (hpos : ∀ p ∈ data, 0 < p.frequency) : 0 < totalObservationsOf data := by
  refine List.sum_pos _ (fun x hx => ?_) ?_
  · obtain ⟨p, hp, rfl⟩ := List.mem_map.mp hx
    exact hpos p hp
  · simpa using hne


theorem calculateCCDF_cons (d : DataPoint) (ds : List DataPoint) :
    calculateCCDF (d :: ds) = .ok (cumulate 0 (withProbability (d :: ds))) := rfl

theorem withProbability_length (data : List DataPoint) :
    (withProbability data).length = data.length := List.length_map _ _

theorem withProbability_get (data : List DataPoint) (i : ℕ)
    (hi : i < (withProbability data).length) (hd : i < data.length) :
    (withProbability data).get ⟨i, hi⟩ =
      { data.get ⟨i, hd⟩ with
        probability := (data.get ⟨i, hd⟩).frequency / totalObservationsOf data } := by
  simp [withProbability, List.get_eq_getElem, List.getElem_map]

theorem withProbability_probs (data : List DataPoint) (n : ℕ) :
    (((withProbability data).take n).map (·.probability)).sum
      = ((data.take n).map fun p => p.frequency / totalObservationsOf data).sum := by
  rw [withProbability, ← List.map_take, List.map_map]
  rfl

/-- C7: `calculateCCDF` fails with the `EmptyInput` kind on an empty
sequence, and for every non-empty sequence returns one point per input point
with `probability_i = frequency_i / total`, `cdf_i` the running sum of the
probabilities of the points up to and including index `i` in input order,
and `ccdf_i = 1 - cdf_i`. -/
theorem calculateCCDF_formulas (data : List DataPoint) :
    calculateCCDF [] = .error .emptyInput ∧
    (data ≠ [] → ∃ out, calculateCCDF data = .ok out ∧
      out.length = data.length ∧
      ∀ i (hi : i < out.length) (hd : i < data.length),
        (out.get ⟨i, hi⟩).probability
            = (data.get ⟨i, hd⟩).frequency / totalObservationsOf data ∧
        (out.get ⟨i, hi⟩).cdf
            = ((data.take (i+1)).map
                fun p => p.frequency / totalObservationsOf data).sum ∧
        (out.get ⟨i, hi⟩).ccdf = 1 - (out.get ⟨i, hi⟩).cdf) := by
  refine ⟨rfl, fun hne => ?_⟩
  obtain ⟨d, ds, rfl⟩ := List.exists_cons_of_ne_nil hne
  refine ⟨cumulate 0 (withProbability (d :: ds)), calculateCCDF_cons d ds, ?_, ?_⟩
  · rw [cumulate_length, withProbability_length]
  · intro i hi hd
    have hm : i < (withProbability (d :: ds)).length := by
      rw [withProbability_length]; exact hd
    rw [cumulate_get _ 0 i hi hm, withProbability_get _ i hm hd]
    refine ⟨rfl, ?_, rfl⟩
    rw [withProbability_probs, zero_add]

theorem withProbability_prob_nonneg (data : List DataPoint)
    (hpos : ∀ p ∈ data, 0 < p.frequency) (htot : 0 < totalObservationsOf data) :
    ∀ x ∈ (withProbability data).map (·.probability), 0 ≤ x := by
  intro x hx
  obtain ⟨p, hp, rfl⟩ := List.mem_map.mp hx
  obtain ⟨q, hq, rfl⟩ := List.mem_map.mp hp
  have hq' : 0 < q.frequency := hpos q hq
  have : (0:ℚ) < q.frequency / totalObservationsOf data := div_pos hq' htot
  exact le_of_lt this

/-- C1: for every non-empty sequence sorted ascending by value with every
frequency positive, the output of `calculateCCDF` has non-decreasing `cdf`,
non-increasing `ccdf`, `cdf = 1` and `ccdf = 0` at the last point, and
`cdf + ccdf = 1` at every point (exact in the rational model; the JS spec
phrases the endpoint equalities up to floating-point tolerance). -/
theorem calculateCCDF_invariants (data : List DataPoint) (hne : data ≠ [])
    (hsorted : data.Pairwise fun a b => a.value ≤ b.value)
    (hpos : ∀ p ∈ data, 0 < p.frequency) :
    ∃ out, calculateCCDF data = .ok out ∧
      out.Pairwise (fun a b => a.cdf ≤ b.cdf) ∧
      out.Pairwise (fun a b => b.ccdf ≤ a.ccdf) ∧
      (∀ p, out.getLast? = some p → p.cdf = 1 ∧ p.ccdf = 0) ∧
      (∀ p ∈ out, p.cdf + p.ccdf = 1) := by
  have htot : 0 < totalObservationsOf data := totalObservations_pos _ hne hpos
  have hnn := withProbability_prob_nonneg data hpos htot
  obtain ⟨d, ds, rfl⟩ := List.exists_cons_of_ne_nil hne
  refine ⟨cumulate 0 (withProbability (d :: ds)), calculateCCDF_cons d ds,
    ?_, ?_, ?_, ?_⟩
  · rw [List.pairwise_iff_get]
    intro i j hij
    have hi' : (i : ℕ) < (withProbability (d :: ds)).length :=
      lt_of_lt_of_eq i.isLt (cumulate_length 0 _)
    have hj' : (j : ℕ) < (withProbability (d :: ds)).length :=
      lt_of_lt_of_eq j.isLt (cumulate_length 0 _)
    rw [cumulate_get _ 0 i i.isLt hi', cumulate_get _ 0 j j.isLt hj']
    show (0:ℚ) + _ ≤ 0 + _
    have hfin : (i : ℕ) + 1 ≤ (j : ℕ) + 1 := by
      have : (i : ℕ) < (j : ℕ) := hij
      omega
    have := sum_take_mono ((withProbability (d :: ds)).map (·.probability)) hnn hfin
    rw [← List.map_take, ← List.map_take] at this
    linarith
  · rw [List.pairwise_iff_get]
    intro i j hij
    have hi' : (i : ℕ) < (withProbability (d :: ds)).length :=
      lt_of_lt_of_eq i.isLt (cumulate_length 0 _)
    have hj' : (j : ℕ) < (withProbability (d :: ds)).length :=
      lt_of_lt_of_eq j.isLt (cumulate_length 0 _)
    rw [cumulate_get _ 0 i i.isLt hi', cumulate_get _ 0 j j.isLt hj']
    show (1:ℚ) - (0 + _) ≤ 1 - (0 + _)
    have hfin : (i : ℕ) + 1 ≤ (j : ℕ) + 1 := by
      have : (i : ℕ) < (j : ℕ) := hij
      omega
    have := sum_take_mono ((withProbability (d :: ds)).map (·.probability)) hnn hfin
    rw [← List.map_take, ← List.map_take] at this
    linarith
  · intro p hp
    have h := cumulate_getLast? _ 0 p hp
    have hsum : ((withProbability (d :: ds)).map (·.probability)).sum = 1 := by
      have h1 : (withProbability (d :: ds)).map (·.probability)
          = (d :: ds).map fun p => p.frequency / totalObservationsOf (d :: ds) := by
        rw [withProbability, List.map_map]
        rfl
      rw [h1, sum_map_div]
      exact div_self (ne_of_gt htot)
    refine ⟨by rw [h.1, hsum]; ring, by rw [h.2, hsum]; ring⟩
  · exact cumulate_cdf_add_ccdf _ 0

/-- Closed witness for `calculateCCDF_invariants`: the hypotheses hold for a
concrete two-point sorted dataset. -/
theorem calculateCCDF_invariants_witness :
    ∃ out, calculateCCDF [⟨1, 3, 0, 0, 0⟩, ⟨2, 1, 0, 0, 0⟩] = .ok out ∧
      out.Pairwise (fun a b => a.cdf ≤ b.cdf) ∧
      out.Pairwise (fun a b => b.ccdf ≤ a.ccdf) ∧
      (∀ p, out.getLast? = some p → p.cdf = 1 ∧ p.ccdf = 0) ∧
      (∀ p ∈ out, p.cdf + p.ccdf = 1) :=
  calculateCCDF_invariants [⟨1, 3, 0, 0, 0⟩, ⟨2, 1, 0, 0, 0⟩]
    (by decide) (by decide) (by decide)

/-- Closed witness for `calculateCCDF_formulas` at a concrete non-empty
input. -/
theorem calculateCCDF_formulas_witness :
    ([⟨1, 3, 0, 0, 0⟩] : List DataPoint) ≠ [] ∧
    (∃ out, calculateCCDF [⟨1, 3, 0, 0, 0⟩] = .ok out ∧
      out.length = ([⟨1, 3, 0, 0, 0⟩] : List DataPoint).length ∧
      ∀ i (hi : i < out.length)
        (hd : i < ([⟨1, 3, 0, 0, 0⟩] : List DataPoint).length),
        (out.get ⟨i, hi⟩).probability
            = (([⟨1, 3, 0, 0, 0⟩] : List DataPoint).get ⟨i, hd⟩).frequency
                / totalObservationsOf [⟨1, 3, 0, 0, 0⟩] ∧
        (out.get ⟨i, hi⟩).cdf
            = ((([⟨1, 3, 0, 0, 0⟩] : List DataPoint).take (i+1)).map
                fun p => p.frequency / totalObservationsOf [⟨1, 3, 0, 0, 0⟩]).sum ∧
        (out.get ⟨i, hi⟩).ccdf = 1 - (out.get ⟨i, hi⟩).cdf) :=
  ⟨by decide, (calculateCCDF_formulas [⟨1, 3, 0, 0, 0⟩]).2 (by decide)⟩

theorem cumulate_preserves (l : List DataPoint) (acc t : ℚ) :
    List.Forall₂ (fun i o => o.value = i.value ∧ o.frequency = i.frequency) l
      (cumulate acc (l.map fun item =>
        { item with probability := item.frequency / t })) := by
  induction l generalizing acc with
  | nil => exact List.Forall₂.nil
  | cons x xs ih => exact List.Forall₂.cons ⟨rfl, rfl⟩ (ih _)

theorem cumulate_map_frequency (acc : ℚ) (l : List DataPoint) :
    (cumulate acc l).map (·.frequency) = l.map (·.frequency) := by
  induction l generalizing acc with
  | nil => rfl
  | cons x xs ih => simp only [cumulate_cons, List.map_cons, ih]

theorem cumulate_prob (l : List DataPoint) (acc t : ℚ) :
    ∀ o ∈ cumulate acc (l.map fun item =>
        { item with probability := item.frequency / t }),
      o.probability = o.frequency / t := by
  induction l generalizing acc with
  | nil => intro o ho; cases ho
  | cons x xs ih =>
      intro o ho
      rcases List.mem_cons.mp ho with h | h
      · subst h; rfl
      · exact ih _ o h

theorem list_map_self {α : Type} (l : List α) (f : α → α)
    (h : ∀ x ∈ l, f x = x) : l.map f = l := by
  induction l with
  | nil => rfl
  | cons x xs ih =>
      rw [List.map_cons, h x (List.mem_cons_self x xs),
        ih fun y hy => h y (List.mem_cons_of_mem x hy)]

theorem dataPoint_eta (o : DataPoint) :
    DataPoint.mk o.value o.frequency o.probability o.cdf o.ccdf = o := by
  cases o; rfl

theorem cumulate_idem (l : List DataPoint) (acc : ℚ) :
    cumulate acc (cumulate acc l) = cumulate acc l := by
  induction l generalizing acc with
  | nil => rfl
  | cons x xs ih =>
      simp only [cumulate_cons]
      exact List.cons_eq_cons.mpr ⟨rfl, ih _⟩

/-- C9: `calculateCCDF` preserves the observation fields of every input
point, and applying it to its own output reproduces the output exactly (in
particular identical `probability`, `cdf` and `ccdf` values). -/
theorem calculateCCDF_idempotent (data : List DataPoint) (hne : data ≠ []) :
    ∃ out, calculateCCDF data = .ok out ∧
      List.Forall₂ (fun i o => o.value = i.value ∧ o.frequency = i.frequency)
        data out ∧
      calculateCCDF out = .ok out := by
  obtain ⟨d, ds, rfl⟩ := List.exists_cons_of_ne_nil hne
  refine ⟨cumulate 0 (withProbability (d :: ds)), calculateCCDF_cons d ds,
    cumulate_preserves _ 0 _, ?_⟩
  have hfreq : (cumulate 0 (withProbability (d :: ds))).map (·.frequency)
      = (d :: ds).map (·.frequency) := by
    rw [cumulate_map_frequency, withProbability, List.map_map]
    rfl
  have htot : totalObservationsOf (cumulate 0 (withProbability (d :: ds)))
      = totalObservationsOf (d :: ds) := by
    rw [totalObservationsOf, hfreq, totalObservationsOf]
  have hout : calculateCCDF (cumulate 0 (withProbability (d :: ds)))
      = .ok (cumulate 0 ((cumulate 0 (withProbability (d :: ds))).map fun item =>
          { item with probability := item.frequency /
              totalObservationsOf (cumulate 0 (withProbability (d :: ds))) })) := rfl
  rw [hout]
  have hmap : (cumulate 0 (withProbability (d :: ds))).map (fun item =>
      { item with probability := item.frequency /
          totalObservationsOf (cumulate 0 (withProbability (d :: ds))) })
      = cumulate 0 (withProbability (d :: ds)) := by
    refine list_map_self _ _ fun o ho => ?_
    have hp : o.probability = o.frequency / totalObservationsOf (d :: ds) :=
      cumulate_prob (d :: ds) 0 _ o ho
    rw [htot, ← hp]
  rw [hmap]
  exact congrArg Except.ok (cumulate_idem _ 0)

/-- Closed witness for `calculateCCDF_idempotent` at a concrete non-empty
input. -/
theorem calculateCCDF_idempotent_witness :
    ∃ out,
      calculateCCDF ([⟨1, 3, 0, 0, 0⟩, ⟨2, 1, 0, 0, 0⟩] : List DataPoint) = .ok out ∧
      List.Forall₂ (fun i o => o.value = i.value ∧ o.frequency = i.frequency)
        ([⟨1, 3, 0, 0, 0⟩, ⟨2, 1, 0, 0, 0⟩] : List DataPoint) out ∧
      calculateCCDF out = .ok out :=
  calculateCCDF_idempotent
    ([⟨1, 3, 0, 0, 0⟩, ⟨2, 1, 0, 0, 0⟩] : List DataPoint) (by decide)

theorem jsAbs_eq_abs (x : ℚ) : jsAbs x = |x| := by
  by_cases h : x < 0
  · simp [jsAbs, h, abs_of_neg h]
  · simp [jsAbs, h, abs_of_nonneg (not_lt.mp h)]

theorem jsAbs_sub_comm (a b : ℚ) : jsAbs (a - b) = jsAbs (b - a) := by
  rw [jsAbs_eq_abs, jsAbs_eq_abs, abs_sub_comm]

theorem rankCompare_neg (a b : StdResult) :
    rankCompare b a = -rankCompare a b := by
  unfold rankCompare
  have habs : jsAbs (a.confidenceScore - b.confidenceScore)
      = jsAbs (b.confidenceScore - a.confidenceScore) := jsAbs_sub_comm _ _
  by_cases h1 : 1/20 < jsAbs (b.confidenceScore - a.confidenceScore)
  · rw [if_pos h1, if_pos (by rw [habs]; exact h1)]
    ring
  · rw [if_neg h1, if_neg (by rw [habs]; exact h1)]
    by_cases h2 : a.goodnessOfFit.aic ≠ 0 ∧ b.goodnessOfFit.aic ≠ 0
    · rw [if_pos h2, if_pos ⟨h2.2, h2.1⟩]
      ring
    · rw [if_neg h2, if_neg (fun hc => h2 ⟨hc.2, hc.1⟩)]
      ring

theorem rankedBefore_total (a b : StdResult) :
    rankedBefore a b ∨ rankedBefore b a := by
  unfold rankedBefore
  rcases le_total (rankCompare a b) 0 with h | h
  · exact Or.inl h
  · right
    rw [rankCompare_neg]
    linarith

theorem chain'_orderedInsert {α : Type} (cmp : α → α → ℚ)
    (htot : ∀ a b : α, cmp a b ≤ 0 ∨ cmp b a ≤ 0) (a : α) (l : List α)
    (h : List.Chain' (fun x y => cmp x y ≤ 0) l) :
    List.Chain' (fun x y => cmp x y ≤ 0) (orderedInsert cmp a l) := by
  induction l with
  | nil => simp [orderedInsert]
  | cons b l ih =>
      rw [orderedInsert]
      by_cases hab : cmp a b ≤ 0
      · rw [if_pos hab]
        exact List.chain'_cons.mpr ⟨hab, h⟩
      · rw [if_neg hab]
        have hba : cmp b a ≤ 0 := (htot a b).resolve_left hab
        have hch := ih h.tail
        refine List.chain'_cons'.mpr ⟨?_, hch⟩
        intro y hy
        cases l with
        | nil =>
            simp only [orderedInsert, List.head?_cons, Option.mem_def,
              Option.some.injEq] at hy
            subst hy
            exact hba
        | cons c l' =>
            rw [orderedInsert] at hy
            by_cases hac : cmp a c ≤ 0
            · rw [if_pos hac] at hy
              simp only [List.head?_cons, Option.mem_def, Option.some.injEq] at hy
              subst hy
              exact hba
            · rw [if_neg hac] at hy
              simp only [List.head?_cons, Option.mem_def, Option.some.injEq] at hy
              subst hy
              exact (List.chain'_cons.mp h).1

theorem chain'_sortWith {α : Type} (cmp : α → α → ℚ)
    (htot : ∀ a b : α, cmp a b ≤ 0 ∨ cmp b a ≤ 0) (l : List α) :
    List.Chain' (fun x y => cmp x y ≤ 0) (sortWith cmp l) := by
  induction l with
  | nil => exact List.chain'_nil
  | cons x xs ih => exact chain'_orderedInsert cmp htot x _ ih

theorem orderedInsert_perm {α : Type} (cmp : α → α → ℚ) (a : α)
    (l : List α) : (orderedInsert cmp a l).Perm (a :: l) := by
  induction l with
  | nil => exact List.Perm.refl _
  | cons b l ih =>
      rw [orderedInsert]
      by_cases hab : cmp a b ≤ 0
      · rw [if_pos hab]
      · rw [if_neg hab]
        exact (ih.cons b).trans (List.Perm.swap a b l)

theorem sortWith_perm {α : Type} (cmp : α → α → ℚ) (l : List α) :
    (sortWith cmp l).Perm l := by
  induction l with
  | nil => exact List.Perm.refl _
  | cons x xs ih =>
      exact (orderedInsert_perm cmp x (sortWith cmp xs)).trans (ih.cons x)

/-- C3 counterexample: with the confidence gap within 0.05, (a) the result
whose AIC is exactly 0 — the strictly lower AIC — is ranked second, because
the JS truthiness guard `a.goodnessOfFit.aic && b.goodnessOfFit.aic` treats
`aic: 0` as missing and falls through to the valid-data-point count; and
(b) with equal nonzero AICs the comparator returns 0 and the original order
is kept, so the item with more valid data points is not moved first. -/
theorem rankResults_tiebreak_counterexample :
    (|resultAicHundred.confidenceScore - resultAicZero.confidenceScore| ≤ 1/20 ∧
      resultAicZero.goodnessOfFit.aic < resultAicHundred.goodnessOfFit.aic ∧
      rankResults [resultAicZero, resultAicHundred]
        = [resultAicHundred, resultAicZero]) ∧
    (|resultEqAicMany.confidenceScore - resultEqAicFew.confidenceScore| ≤ 1/20 ∧
      resultEqAicFew.goodnessOfFit.aic = resultEqAicMany.goodnessOfFit.aic ∧
      resultEqAicFew.validDataPoints < resultEqAicMany.validDataPoints ∧
      rankResults [resultEqAicFew, resultEqAicMany]
        = [resultEqAicFew, resultEqAicMany]) := by
  refine ⟨⟨?_, by norm_num [resultAicZero, resultAicHundred], ?_⟩,
    ?_, by norm_num [resultEqAicFew, resultEqAicMany],
    by norm_num [resultEqAicFew, resultEqAicMany], ?_⟩
  · rw [show resultAicHundred.confidenceScore = 92/100 from rfl,
      show resultAicZero.confidenceScore = 91/100 from rfl, abs_le]
    norm_num
  · norm_num [rankResults, sortWith, orderedInsert, rankCompare, jsAbs,
      resultAicZero, resultAicHundred]
  · rw [show resultEqAicMany.confidenceScore = 92/100 from rfl,
      show resultEqAicFew.confidenceScore = 91/100 from rfl, abs_le]
    norm_num
  · norm_num [rankResults, sortWith, orderedInsert, rankCompare, jsAbs,
      resultEqAicFew, resultEqAicMany]

/-- C3 (amended): `rankResults` stably sorts by a comparator that orders by
confidence score descending when the gap exceeds 0.05; when the gap is at
most 0.05 and both AICs are nonzero, by ascending AIC (equal nonzero AICs
keep the original order); and otherwise — when either AIC is exactly 0,
which the JS truthiness guard treats as missing — by descending
valid-data-point count. The output is a permutation of the input whose every
adjacent pair is ordered by the comparator, and the spec's worked example
(0.91 with AIC 120 vs 0.92 with AIC 100) ranks the AIC=100 result first. -/
theorem rankResults_spec :
    (∀ l : List StdResult, (rankResults l).Perm l) ∧
    (∀ l : List StdResult, List.Chain' rankedBefore (rankResults l)) ∧
    (∀ a b : StdResult,
      (1/20 < |b.confidenceScore - a.confidenceScore| →
        (rankedBefore a b ↔ b.confidenceScore ≤ a.confidenceScore)) ∧
      (|b.confidenceScore - a.confidenceScore| ≤ 1/20 →
        a.goodnessOfFit.aic ≠ 0 → b.goodnessOfFit.aic ≠ 0 →
        (rankedBefore a b ↔ a.goodnessOfFit.aic ≤ b.goodnessOfFit.aic)) ∧
      (|b.confidenceScore - a.confidenceScore| ≤ 1/20 →
        (a.goodnessOfFit.aic = 0 ∨ b.goodnessOfFit.aic = 0) →
        (rankedBefore a b ↔ b.validDataPoints ≤ a.validDataPoints))) ∧
    rankResults [resultConf91Aic120, resultConf92Aic100]
      = [resultConf92Aic100, resultConf91Aic120] := by
  refine ⟨fun l => sortWith_perm _ l,
    fun l => chain'_sortWith rankCompare (fun a b => rankedBefore_total a b) l,
    fun a b => ⟨?_, ?_, ?_⟩,
    by norm_num [rankResults, sortWith, orderedInsert, rankCompare, jsAbs,
      resultConf91Aic120, resultConf92Aic100]⟩
  · intro h
    rw [← jsAbs_eq_abs] at h
    unfold rankedBefore rankCompare
    rw [if_pos h]
    exact sub_nonpos
  · intro h h1 h2
    rw [← jsAbs_eq_abs] at h
    unfold rankedBefore rankCompare
    rw [if_neg (not_lt.mpr h), if_pos ⟨h1, h2⟩]
    exact sub_nonpos
  · intro h h0
    rw [← jsAbs_eq_abs] at h
    unfold rankedBefore rankCompare
    rw [if_neg (not_lt.mpr h), if_neg (by tauto)]
    exact sub_nonpos

/-- Closed witness for `rankResults_spec`: instantiations at the worked
example, with the hypotheses discharged by computation. -/
theorem rankResults_spec_witness :
    (rankResults [resultConf91Aic120, resultConf92Aic100]).Perm
        [resultConf91Aic120, resultConf92Aic100] ∧
    List.Chain' rankedBefore
        (rankResults [resultConf91Aic120, resultConf92Aic100]) ∧
    (rankedBefore resultConf92Aic100 resultConf91Aic120 ↔
      resultConf92Aic100.goodnessOfFit.aic
        ≤ resultConf91Aic120.goodnessOfFit.aic) :=
  ⟨rankResults_spec.1 _, rankResults_spec.2.1 _,
    (rankResults_spec.2.2.1 resultConf92Aic100 resultConf91Aic120).2.1
      (by rw [show resultConf91Aic120.confidenceScore = 91/100 from rfl,
            show resultConf92Aic100.confidenceScore = 92/100 from rfl, abs_le]
          norm_num)
      (by norm_num [resultConf92Aic100]) (by norm_num [resultConf91Aic120])⟩

/-- C4: `getBestFit` returns the top-ranked entry iff that entry's
`isGoodFit` flag is true and otherwise returns `none`; in particular it
returns `none` whenever every result has `isGoodFit = false`, even though
`rankResults` still produces a fully ordered list. -/
theorem getBestFit_spec :
    (∀ (results : List StdResult) best rest,
      rankResults results = best :: rest →
      ((getBestFit results = some best ↔ best.isGoodFit = true) ∧
       (best.isGoodFit = false → getBestFit results = none))) ∧
    (∀ results : List StdResult, (∀ r ∈ results, r.isGoodFit = false) →
      getBestFit results = none) := by
  constructor
  · intro results best rest h
    cases hb : best.isGoodFit with
    | false =>
        constructor
        · simp [getBestFit, h, hb]
        · intro _
          simp [getBestFit, h, hb]
    | true =>
        constructor
        · simp [getBestFit, h, hb]
        · intro hc
          cases hc
  · intro results hall
    cases hr : rankResults results with
    | nil => simp [getBestFit, hr]
    | cons best rest =>
        have h1 : best ∈ rankResults results := by
          rw [hr]
          exact List.mem_cons_self _ _
        have hmem : best ∈ results :=
          (sortWith_perm rankCompare results).mem_iff.mp h1
        simp [getBestFit, hr, hall best hmem]

/-- Closed witness for `getBestFit_spec`: the top-ranked entry is returned
when flagged good; a list whose entries all have `isGoodFit = false` yields
`none`. -/
theorem getBestFit_spec_witness :
    ((getBestFit [resultAicZero, resultAicHundred] = some resultAicHundred ↔
        resultAicHundred.isGoodFit = true) ∧
      (resultAicHundred.isGoodFit = false →
        getBestFit [resultAicZero, resultAicHundred] = none)) ∧
    getBestFit [resultBadFit] = none :=
  ⟨getBestFit_spec.1 [resultAicZero, resultAicHundred] resultAicHundred
      [resultAicZero]
      (by norm_num [rankResults, sortWith, orderedInsert, rankCompare, jsAbs,
        resultAicZero, resultAicHundred]),
    getBestFit_spec.2 [resultBadFit] (by
      intro r hr
      rw [List.mem_singleton.mp hr]
      rfl)⟩

theorem foldl_analyzeStep (engine : AnalysisEngine) (data : List DataPoint)
    (names : List String) (rs : List StdResult) (es : List EngineError) :
    names.foldl (analyzeStep engine data) (rs, es)
      = (rs ++ names.filterMap (fun n => (analyzeSingle engine n data).toOption),
         es ++ names.filterMap fun n =>
           match analyzeSingle engine n data with
           | .error e => some ⟨n, e⟩
           | .ok _ => none) := by
  induction names generalizing rs es with
  | nil => simp
  | cons n ns ih =>
      rw [List.foldl_cons]
      cases h : analyzeSingle engine n data with
      | ok r =>
          rw [show analyzeStep engine data (rs, es) n = (rs ++ [r], es) by
            simp [analyzeStep, h]]
          rw [ih]
          simp [List.filterMap_cons, h, Except.toOption]
      | error e =>
          rw [show analyzeStep engine data (rs, es) n = (rs, es ++ [⟨n, e⟩]) by
            simp [analyzeStep, h]]
          rw [ih]
          simp [List.filterMap_cons, h, Except.toOption]

theorem filterMap_disjoint_length {α β γ : Type} (l : List α)
    (f : α → Option β) (g : α → Option γ)
    (h : ∀ x ∈ l, (f x).isSome ↔ (g x).isNone) :
    (l.filterMap f).length + (l.filterMap g).length = l.length := by
  induction l with
  | nil => rfl
  | cons x xs ih =>
      have hx := h x (List.mem_cons_self x xs)
      have ih2 := ih fun y hy => h y (List.mem_cons_of_mem x hy)
      rw [List.filterMap_cons, List.filterMap_cons]
      cases hf : f x with
      | some b =>
          have hg : g x = none := by
            rw [hf] at hx
            simpa using hx.mp rfl
          rw [hg]
          simp only [List.length_cons]
          omega
      | none =>
          have hg : ∃ c, g x = some c := by
            rw [hf] at hx
            cases hgx : g x with
            | some c => exact ⟨c, rfl⟩
            | none => rw [hgx] at hx; simp at hx
          obtain ⟨c, hc⟩ := hg
          rw [hc]
          simp only [List.length_cons]
          omega

theorem analyzeCounts (engine : AnalysisEngine) (data : List DataPoint)
    (names : List String) :
    (names.filterMap fun n => (analyzeSingle engine n data).toOption).length
      + (names.filterMap fun n =>
          match analyzeSingle engine n data with
          | .error e => some (⟨n, e⟩ : EngineError)
          | .ok _ => none).length
      = names.length := by
  refine filterMap_disjoint_length names _ _ fun n hn => ?_
  cases h : analyzeSingle engine n data <;> simp [h, Except.toOption]

/-- C5: for every dataset and analyzer-name argument, when the resolved name
list is non-empty `analyzeMultiple` returns normally: each failing analyzer
contributes exactly one `{analyzer, error}` record (in call order), each
succeeding analyzer contributes exactly one standardized result (the ranked
`results` list is a permutation of the successes), successes and errors
together account for every resolved name, and the call itself raises only
when the resolved name list is empty. -/
theorem analyzeMultiple_isolation (engine : AnalysisEngine)
    (data : List DataPoint) (analyzerNames : Option (List String)) :
    (analyzerNames.getD engine.defaultAnalyzers ≠ [] →
      ∃ m, analyzeMultiple engine data analyzerNames = .ok m ∧
        m.errors = (analyzerNames.getD engine.defaultAnalyzers).filterMap
          (fun n => match analyzeSingle engine n data with
            | .error e => some ⟨n, e⟩
            | .ok _ => none) ∧
        m.results.Perm ((analyzerNames.getD engine.defaultAnalyzers).filterMap
          fun n => (analyzeSingle engine n data).toOption) ∧
        m.results.length + m.errors.length
          = (analyzerNames.getD engine.defaultAnalyzers).length) ∧
    (analyzerNames.getD engine.defaultAnalyzers = [] →
      analyzeMultiple engine data analyzerNames
        = .error .noAnalyzersConfigured) := by
  constructor
  · intro hne
    have hlen : ¬ ((analyzerNames.getD engine.defaultAnalyzers).length = 0) := by
      simpa [List.length_eq_zero] using hne
    have hchar : analyzeMultiple engine data analyzerNames = .ok
        { results := rankResults
            ((analyzerNames.getD engine.defaultAnalyzers).filterMap
              fun n => (analyzeSingle engine n data).toOption),
          bestFit := getBestFit (rankResults
            ((analyzerNames.getD engine.defaultAnalyzers).filterMap
              fun n => (analyzeSingle engine n data).toOption)),
          errors := (analyzerNames.getD engine.defaultAnalyzers).filterMap
            fun n => match analyzeSingle engine n data with
              | .error e => some ⟨n, e⟩
              | .ok _ => none,
          summary := generateSummary
            (rankResults ((analyzerNames.getD engine.defaultAnalyzers).filterMap
              fun n => (analyzeSingle engine n data).toOption))
            (getBestFit (rankResults
              ((analyzerNames.getD engine.defaultAnalyzers).filterMap
                fun n => (analyzeSingle engine n data).toOption)))
            ((analyzerNames.getD engine.defaultAnalyzers).filterMap
              fun n => match analyzeSingle engine n data with
                | .error e => some ⟨n, e⟩
                | .ok _ => none) } := by
      unfold analyzeMultiple
      rw [if_neg hlen, foldl_analyzeStep]
      simp only [List.nil_append]
    refine ⟨_, hchar, rfl, sortWith_perm _ _, ?_⟩
    show (sortWith rankCompare
          ((analyzerNames.getD engine.defaultAnalyzers).filterMap
            fun n => (analyzeSingle engine n data).toOption)).length
        + ((analyzerNames.getD engine.defaultAnalyzers).filterMap
            (fun n => match analyzeSingle engine n data with
              | .error e => some (⟨n, e⟩ : EngineError)
              | .ok _ => none)).length
        = (analyzerNames.getD engine.defaultAnalyzers).length
    rw [(sortWith_perm rankCompare _).length_eq]
    exact analyzeCounts engine data _
  · intro hnil
    unfold analyzeMultiple
    rw [if_pos (by simp [hnil])]

/-- Closed witness for `analyzeMultiple_isolation`: a two-analyzer engine
whose second analyzer always throws yields exactly one success and one error
record, and the same engine with an explicitly empty name list raises
`NoAnalyzersConfigured`. -/
theorem analyzeMultiple_isolation_witness :
    (∃ m, analyzeMultiple wEngine2 [] none = .ok m ∧
        m.errors = ((none : Option (List String)).getD
            wEngine2.defaultAnalyzers).filterMap
          (fun n => match analyzeSingle wEngine2 n [] with
            | .error e => some ⟨n, e⟩
            | .ok _ => none) ∧
        m.results.Perm (((none : Option (List String)).getD
            wEngine2.defaultAnalyzers).filterMap
          fun n => (analyzeSingle wEngine2 n [] |>.toOption)) ∧
        m.results.length + m.errors.length
          = ((none : Option (List String)).getD
              wEngine2.defaultAnalyzers).length) ∧
    analyzeMultiple wEngine2 [] (some []) = .error .noAnalyzersConfigured :=
  ⟨(analyzeMultiple_isolation wEngine2 [] none).1 (by simp [wEngine2]),
    (analyzeMultiple_isolation wEngine2 [] (some [])).2 rfl⟩

theorem mapGet_mapSet (m : List (String × Analyzer)) (k : String)
    (v : Analyzer) (n : String) :
    mapGet (mapSet m k v) n = if k = n then some v else mapGet m n := by
  induction m with
  | nil => simp [mapSet, mapGet]
  | cons p rest ih =>
      obtain ⟨k', v'⟩ := p
      by_cases hk : k' = k
      · subst hk
        by_cases hn : k' = n
        · subst hn
          simp [mapSet, mapGet]
        · simp [mapSet, mapGet, hn]
      · by_cases hn : k' = n
        · subst hn
          have hkn : ¬ (k = k') := fun h => hk h.symm
          simp [mapSet, mapGet, hk, hkn]
        · simp [mapSet, mapGet, hk, hn, ih]

theorem mapGet_mapDelete (m : List (String × Analyzer)) (k n : String)
    (hne : n ≠ k) : mapGet (mapDelete m k) n = mapGet m n := by
  induction m with
  | nil => rfl
  | cons p rest ih =>
      obtain ⟨k', v'⟩ := p
      by_cases hk : k' = k
      · subst hk
        have : ¬ (k' = n) := fun h => hne h.symm
        simp [mapDelete, mapGet, this]
      · by_cases hn : k' = n
        · subst hn
          simp [mapDelete, mapGet, hk]
        · simp [mapDelete, mapGet, hk, hn, ih]

theorem registerAnalyzer_inv (engine : AnalysisEngine) (a : Analyzer)
    (d : Bool) (e' : AnalysisEngine) (h : engineInv engine)
    (hr : registerAnalyzer engine a d = .ok e') : engineInv e' := by
  unfold registerAnalyzer at hr
  by_cases hname : a.name = ""
  · rw [if_pos hname] at hr; cases hr
  · rw [if_neg hname] at hr
    injection hr with hr
    subst hr
    constructor
    · show List.Nodup (if d ∧ ¬ engine.defaultAnalyzers.contains a.name then
          engine.defaultAnalyzers ++ [a.name] else engine.defaultAnalyzers)
      split
      · rename_i hcond
        have hnotmem : a.name ∉ engine.defaultAnalyzers := by
          intro hm
          exact hcond.2 (by simpa using hm)
        rw [List.nodup_append]
        refine ⟨h.1, List.nodup_singleton _, ?_⟩
        intro x hx hx'
        rw [List.mem_singleton] at hx'
        subst hx'
        exact hnotmem hx
      · exact h.1
    · intro n hn
      show (mapGet (mapSet engine.analyzers a.name a) n).isSome
      rw [mapGet_mapSet]
      by_cases heq : a.name = n
      · rw [if_pos heq]; rfl
      · rw [if_neg heq]
        apply h.2
        revert hn
        show n ∈ (if d ∧ ¬ engine.defaultAnalyzers.contains a.name then
            engine.defaultAnalyzers ++ [a.name] else engine.defaultAnalyzers) →
          n ∈ engine.defaultAnalyzers
        split
        · intro hn
          rcases List.mem_append.mp hn with h1 | h1
          · exact h1
          · rw [List.mem_singleton] at h1
            exact absurd h1.symm heq
        · exact id

theorem unregisterAnalyzer_inv (engine : AnalysisEngine) (nm : String)
    (h : engineInv engine) : engineInv (unregisterAnalyzer engine nm) := by
  constructor
  · exact h.1.erase nm
  · intro n hn
    have hmem : n ∈ engine.defaultAnalyzers := List.mem_of_mem_erase hn
    have hne : n ≠ nm := ((List.Nodup.mem_erase_iff h.1).mp hn).1
    show (mapGet (mapDelete engine.analyzers nm) n).isSome
    rw [mapGet_mapDelete _ _ _ hne]
    exact h.2 n hmem

theorem applyOp_inv (engine : AnalysisEngine) (op : EngineOp)
    (h : engineInv engine) : engineInv (applyOp engine op) := by
  cases op with
  | registerOp a d =>
      show engineInv (match registerAnalyzer engine a d with
        | .ok e' => e'
        | .error _ => engine)
      cases hr : registerAnalyzer engine a d with
      | error e => exact h
      | ok e' => exact registerAnalyzer_inv engine a d e' h hr
  | unregisterOp n => exact unregisterAnalyzer_inv engine n h

theorem foldl_applyOp_inv (ops : List EngineOp) (engine : AnalysisEngine)
    (h : engineInv engine) : engineInv (ops.foldl applyOp engine) := by
  induction ops generalizing engine with
  | nil => exact h
  | cons op ops ih => exact ih _ (applyOp_inv engine op h)

/-- C10: in every engine state reachable by any sequence of
`registerAnalyzer`/`unregisterAnalyzer` calls, the defaults list has no
duplicate names and every default name is a key of the analyzer map;
re-registering an already-default name with `isDefault = true` leaves the
defaults list unchanged, and registering a previously-default name with
`isDefault = false` keeps it in the defaults list. -/
theorem engine_defaults_invariant :
    (∀ ops : List EngineOp, (runOps ops).defaultAnalyzers.Nodup ∧
      ∀ n ∈ (runOps ops).defaultAnalyzers,
        (mapGet (runOps ops).analyzers n).isSome) ∧
    (∀ (engine : AnalysisEngine) (a : Analyzer) (e' : AnalysisEngine),
      a.name ∈ engine.defaultAnalyzers →
      registerAnalyzer engine a true = .ok e' →
      e'.defaultAnalyzers = engine.defaultAnalyzers) ∧
    (∀ (engine : AnalysisEngine) (a : Analyzer) (e' : AnalysisEngine),
      a.name ∈ engine.defaultAnalyzers →
      registerAnalyzer engine a false = .ok e' →
      a.name ∈ e'.defaultAnalyzers) := by
  refine ⟨?_, ?_, ?_⟩
  · intro ops
    exact foldl_applyOp_inv ops emptyEngine
      ⟨List.nodup_nil, fun n hn => absurd hn (List.not_mem_nil n)⟩
  · intro engine a e' hmem hr
    unfold registerAnalyzer at hr
    by_cases hname : a.name = ""
    · rw [if_pos hname] at hr; cases hr
    · rw [if_neg hname] at hr
      injection hr with hr
      subst hr
      show (if (true : Bool) ∧ ¬ engine.defaultAnalyzers.contains a.name then
          engine.defaultAnalyzers ++ [a.name] else engine.defaultAnalyzers)
        = engine.defaultAnalyzers
      split
      · rename_i hcond
        exact absurd (by simpa using hmem) hcond.2
      · rfl
  · intro engine a e' hmem hr
    unfold registerAnalyzer at hr
    by_cases hname : a.name = ""
    · rw [if_pos hname] at hr; cases hr
    · rw [if_neg hname] at hr
      injection hr with hr
      subst hr
      show a.name ∈ (if (false : Bool) ∧ ¬ engine.defaultAnalyzers.contains a.name
          then engine.defaultAnalyzers ++ [a.name] else engine.defaultAnalyzers)
      split
      · rename_i hcond
        exact absurd hcond.1 (by simp)
      · exact hmem

/-- Closed witness for `engine_defaults_invariant`: the invariant after one
concrete registration, and re-registration of an already-default name at a
concrete engine. -/
theorem engine_defaults_invariant_witness :
    ((runOps [EngineOp.registerOp wAnalyzer true]).defaultAnalyzers.Nodup ∧
      ∀ n ∈ (runOps [EngineOp.registerOp wAnalyzer true]).defaultAnalyzers,
        (mapGet (runOps [EngineOp.registerOp wAnalyzer true]).analyzers
          n).isSome) ∧
    wEngine.defaultAnalyzers = wEngine.defaultAnalyzers ∧
    wAnalyzer.name ∈ wEngine.defaultAnalyzers :=
  ⟨engine_defaults_invariant.1 [EngineOp.registerOp wAnalyzer true],
    engine_defaults_invariant.2.1 wEngine wAnalyzer wEngine
      (List.mem_singleton.mpr rfl) rfl,
    engine_defaults_invariant.2.2 wEngine wAnalyzer wEngine
      (List.mem_singleton.mpr rfl) rfl⟩


/-- C8: the exponential analyzer's `getTheoreticalCCDF` is total (a pure
function over the rational model, so no NaN or division can arise) and its
guards are as specified: it returns exactly 1 at every `x < 0`, exactly 1 at
every `x` when `lambda = 0` (the degenerate branch returns before touching
`exp`), and in particular `getTheoreticalCCDF [1,2,3] {lambda: 0}` is
`[1,1,1]` for any realization of the numeric primitives. -/
theorem exponential_ccdf_safe (fns : RealFns) (xValues : List ℚ)
    (parameters : ExpParams) :
    (parameters.lambda = 0 →
      exponentialGetTheoreticalCCDF fns xValues parameters
        = xValues.map fun _ => 1) ∧
    (∀ x : ℚ, x < 0 →
      exponentialGetTheoreticalCCDF fns [x] parameters = [1]) ∧
    exponentialGetTheoreticalCCDF fns [1, 2, 3] ⟨0⟩ = [1, 1, 1] := by
  refine ⟨?_, ?_, ?_⟩
  · intro h
    simp [exponentialGetTheoreticalCCDF, h]
  · intro x hx
    simp [exponentialGetTheoreticalCCDF, hx]
  · norm_num [exponentialGetTheoreticalCCDF]

/-- Closed witness for `exponential_ccdf_safe`: the degenerate-lambda branch
and the negative-x branch at concrete inputs. -/
theorem exponential_ccdf_safe_witness :
    exponentialGetTheoreticalCCDF wFns [1, 2, 3] ⟨0⟩
        = ([1, 2, 3] : List ℚ).map (fun _ => 1) ∧
    exponentialGetTheoreticalCCDF wFns [-2] ⟨5⟩ = [1] :=
  ⟨(exponential_ccdf_safe wFns [1, 2, 3] ⟨0⟩).1 rfl,
    (exponential_ccdf_safe wFns [-2] ⟨5⟩).2.1 (-2) (by norm_num)⟩

theorem validLogPointOf_pos (fns : RealFns) (d : DataPoint)
    (hv : 0 < d.value) (hc : 0 < d.ccdf) :
    validLogPointOf (logPointOf fns d)
      = some ⟨d.value, d.frequency, d.probability, d.cdf, d.ccdf,
          fns.log10 d.value, fns.log10 d.ccdf⟩ := by
  simp [validLogPointOf, logPointOf, log10, not_le.mpr hv, not_le.mpr hc, hc]

theorem validLogPointOf_nonpos (fns : RealFns) (d : DataPoint)
    (h : ¬ (0 < d.value ∧ 0 < d.ccdf)) :
    validLogPointOf (logPointOf fns d) = none := by
  by_cases hv : 0 < d.value
  · have hc : ¬ 0 < d.ccdf := fun hc => h ⟨hv, hc⟩
    simp [validLogPointOf, logPointOf, log10, hc]
  · simp [validLogPointOf, logPointOf, log10, not_lt.mp hv]

theorem filterValid_addLog (fns : RealFns) (data : List DataPoint) :
    filterValidLogData (addLogTransforms fns data)
      = (data.filter fun p => decide (0 < p.value ∧ 0 < p.ccdf)).map
          fun p => ⟨p.value, p.frequency, p.probability, p.cdf, p.ccdf,
            fns.log10 p.value, fns.log10 p.ccdf⟩ := by
  induction data with
  | nil => rfl
  | cons d ds ih =>
      show List.filterMap validLogPointOf
          (logPointOf fns d :: addLogTransforms fns ds) = _
      rw [List.filterMap_cons, List.filter_cons]
      by_cases h : 0 < d.value ∧ 0 < d.ccdf
      · rw [validLogPointOf_pos fns d h.1 h.2,
          if_pos (decide_eq_true h), List.map_cons]
        exact congrArg _ ih
      · rw [validLogPointOf_nonpos fns d h, if_neg (by simpa using h)]
        exact ih

theorem kolmogorovSmirnovTest_ok (fns : RealFns) (e t : List ℚ)
    (hlen : e.length = t.length) (hne : e.length ≠ 0) :
    kolmogorovSmirnovTest fns e t = .ok (ksResultOf fns e t) := by
  unfold kolmogorovSmirnovTest
  rw [if_neg (not_not_intro hlen), if_neg hne]

theorem linearRegression_ok (fns : RealFns) (data : List RegressionPoint)
    (h2 : ¬ data.length < 2)
    (hd : ¬ jsAbs ((data.length : ℚ) * (data.map fun p => p.x * p.x).sum
        - (data.map fun p => p.x).sum * (data.map fun p => p.x).sum)
        < 1/10^10) :
    linearRegression fns data = .ok (regressionOf fns data) := by
  unfold linearRegression
  rw [if_neg h2, if_neg hd]

theorem powerLawAnalyze_isOk (fns : RealFns) (data : List DataPoint)
    (hne : ¬ data.isEmpty = true)
    (hcount : ¬ (filterValidLogData (addLogTransforms fns data)).length < 3)
    (hd : ¬ jsAbs
        ((((filterValidLogData (addLogTransforms fns data)).map
              fun item => RegressionPoint.mk item.logValue item.logCCDF).length : ℚ)
          * (((filterValidLogData (addLogTransforms fns data)).map
              fun item => RegressionPoint.mk item.logValue item.logCCDF).map
            fun p => p.x * p.x).sum
          - (((filterValidLogData (addLogTransforms fns data)).map
              fun item => RegressionPoint.mk item.logValue item.logCCDF).map
            fun p => p.x).sum
          * (((filterValidLogData (addLogTransforms fns data)).map
              fun item => RegressionPoint.mk item.logValue item.logCCDF).map
            fun p => p.x).sum) < 1/10^10) :
    ∃ r, powerLawAnalyze fns data = .ok r := by
  unfold powerLawAnalyze
  rw [if_neg hne, if_neg hcount]
  rw [linearRegression_ok fns _ (by rw [List.length_map]; omega) hd]
  simp only [Except.bind]
  unfold powerLawCalculateGoodnessOfFit
  rw [kolmogorovSmirnovTest_ok fns _ _
    (by simp [powerLawTheoreticalValues])
    (by simp only [List.length_map]; omega)]
  simp only [Except.map]
  exact ⟨_, rfl⟩

/-- C2 counterexample: on the empty input `0 < 3` points survive the
positive-value/positive-CCDF filter, yet `PowerLawAnalyzer.analyze` fails
with the `EmptyInput` kind ("Data must be a non-empty array") rather than
`InsufficientValidData`, so "analyze fails (InsufficientValidData) whenever
fewer than 3 points survive that filter" is false as stated. -/
theorem powerLawAnalyze_empty_counterexample :
    (([] : List DataPoint).filter fun p =>
        decide (0 < p.value ∧ 0 < p.ccdf)).length < 3 ∧
    powerLawAnalyze wFns [] = .error .emptyInput ∧
    powerLawAnalyze wFns [] ≠ .error .insufficientValidData := by
  refine ⟨by decide, rfl, fun h => absurd (Except.error.inj h) (by decide)⟩

/-- C2 (amended): whenever `PowerLawAnalyzer.analyze` succeeds, the returned
parameters satisfy `exponent = -slope`, `scalingConstant = 10^intercept`
with slope and intercept taken from the least-squares regression of
`log10(ccdf)` on `log10(value)` over the points with positive value and
positive CCDF; and when fewer than 3 points survive that filter it fails
with `EmptyInput` if the input is empty and `InsufficientValidData`
otherwise. -/
theorem powerLawAnalyze_ols_spec (fns : RealFns) (data : List DataPoint) :
    (∀ r, powerLawAnalyze fns data = .ok r →
      ∃ reg, linearRegression fns
          ((data.filter fun p => decide (0 < p.value ∧ 0 < p.ccdf)).map
            fun p => RegressionPoint.mk (fns.log10 p.value)
              (fns.log10 p.ccdf)) = .ok reg ∧
        r.parameters.exponent = -reg.slope ∧
        r.parameters.scalingConstant = fns.pow10 reg.intercept ∧
        r.parameters.slope = reg.slope ∧
        r.parameters.intercept = reg.intercept) ∧
    ((data.filter fun p => decide (0 < p.value ∧ 0 < p.ccdf)).length < 3 →
      powerLawAnalyze fns data
        = .error (if data.isEmpty then Err.emptyInput
            else Err.insufficientValidData)) := by
  have hmap : (filterValidLogData (addLogTransforms fns data)).map
      (fun item => RegressionPoint.mk item.logValue item.logCCDF)
      = (data.filter fun p => decide (0 < p.value ∧ 0 < p.ccdf)).map
          fun p => RegressionPoint.mk (fns.log10 p.value)
            (fns.log10 p.ccdf) := by
    rw [filterValid_addLog, List.map_map]
    rfl
  constructor
  · intro r hr
    unfold powerLawAnalyze at hr
    by_cases hempty : data.isEmpty = true
    · rw [if_pos hempty] at hr
      simp at hr
    · rw [if_neg hempty] at hr
      by_cases hcount :
          (filterValidLogData (addLogTransforms fns data)).length < 3
      · rw [if_pos hcount] at hr
        simp at hr
      · rw [if_neg hcount] at hr
        cases hreg : linearRegression fns
            ((filterValidLogData (addLogTransforms fns data)).map
              fun item => RegressionPoint.mk item.logValue item.logCCDF) with
        | error e =>
            rw [hreg] at hr
            simp [Except.bind] at hr
        | ok regression =>
            rw [hreg] at hr
            simp only [Except.bind] at hr
            cases hgof : powerLawCalculateGoodnessOfFit fns
                (filterValidLogData (addLogTransforms fns data))
                (powerLawTheoreticalValues fns regression
                  (filterValidLogData (addLogTransforms fns data)))
                regression with
            | error e =>
                rw [hgof] at hr
                simp [Except.map] at hr
            | ok g =>
                rw [hgof] at hr
                simp only [Except.map] at hr
                injection hr with h
                subst h
                rw [hmap] at hreg
                exact ⟨regression, hreg, rfl, rfl, rfl, rfl⟩
  · intro hlt
    have hcount : (filterValidLogData (addLogTransforms fns data)).length < 3 := by
      rw [filterValid_addLog, List.length_map]
      exact hlt
    by_cases hempty : data.isEmpty = true
    · unfold powerLawAnalyze
      rw [if_pos hempty, if_pos hempty]
    · unfold powerLawAnalyze
      rw [if_neg hempty, if_neg hempty, if_pos hcount]

/-- Closed witness for `powerLawAnalyze_ols_spec`: on a concrete 3-point
dataset the analysis succeeds and the parameters agree with the regression
over the filtered log-log points, and on a concrete 1-point dataset it
fails as specified. -/
theorem powerLawAnalyze_ols_spec_witness :
    (∃ r reg, powerLawAnalyze wFns plData = .ok r ∧
      linearRegression wFns ((plData.filter fun p =>
          decide (0 < p.value ∧ 0 < p.ccdf)).map
            fun p => RegressionPoint.mk (wFns.log10 p.value)
              (wFns.log10 p.ccdf)) = .ok reg ∧
      r.parameters.exponent = -reg.slope ∧
      r.parameters.scalingConstant = wFns.pow10 reg.intercept) ∧
    powerLawAnalyze wFns [⟨1, 1, 0, 0, 2⟩]
      = .error (if ([⟨1, 1, 0, 0, 2⟩] : List DataPoint).isEmpty
          then Err.emptyInput else Err.insufficientValidData) := by
  constructor
  · obtain ⟨r, hr⟩ := powerLawAnalyze_isOk wFns plData (by decide) (by decide)
      (by
        have hL : (filterValidLogData (addLogTransforms wFns plData)).map
            (fun item => RegressionPoint.mk item.logValue item.logCCDF)
            = [⟨1, 5⟩, ⟨2, 4⟩, ⟨3, 3⟩] := by decide
        rw [hL]
        norm_num [jsAbs])
    obtain ⟨reg, hreg, h1, h2, h3, h4⟩ :=
      (powerLawAnalyze_ols_spec wFns plData).1 r hr
    exact ⟨r, reg, hr, hreg, h1, h2⟩
  · exact (powerLawAnalyze_ols_spec wFns [⟨1, 1, 0, 0, 2⟩]).2 (by decide)

theorem validLnPointOf_pos (fns : RealFns) (d : DataPoint) (hv : 0 < d.value) :
    validLnPointOf (lnPointOf fns d)
      = some ⟨d.value, d.frequency, d.probability, d.cdf, d.ccdf,
          fns.ln d.value⟩ := by
  simp [validLnPointOf, lnPointOf, hv]

theorem validLnPointOf_nonpos (fns : RealFns) (d : DataPoint)
    (hv : ¬ 0 < d.value) :
    validLnPointOf (lnPointOf fns d) = none := by
  simp [validLnPointOf, lnPointOf, hv]

theorem filterValidLn_addLn (fns : RealFns) (data : List DataPoint) :
    filterValidLnData (addLnTransforms fns data)
      = (data.filter fun p => decide (0 < p.value)).map
          fun p => ⟨p.value, p.frequency, p.probability, p.cdf, p.ccdf,
            fns.ln p.value⟩ := by
  induction data with
  | nil => rfl
  | cons d ds ih =>
      show List.filterMap validLnPointOf
          (lnPointOf fns d :: addLnTransforms fns ds) = _
      rw [List.filterMap_cons, List.filter_cons]
      by_cases hv : 0 < d.value
      · rw [validLnPointOf_pos fns d hv, if_pos (decide_eq_true hv),
          List.map_cons]
        exact congrArg _ ih
      · rw [validLnPointOf_nonpos fns d hv, if_neg (by simpa using hv)]
        exact ih

theorem mapExcept_forall₂ {α β : Type} (f : α → Except Err β) :
    ∀ (l : List α) (out : List β), mapExcept f l = .ok out →
      List.Forall₂ (fun a b => f a = .ok b) l out := by
  intro l
  induction l with
  | nil =>
      intro out h
      simp only [mapExcept] at h
      injection h with h
      subst h
      exact List.Forall₂.nil
  | cons a l ih =>
      intro out h
      simp only [mapExcept] at h
      cases hfa : f a with
      | error e => rw [hfa] at h; simp [Except.bind] at h
      | ok b =>
          rw [hfa] at h
          simp only [Except.bind] at h
          cases hml : mapExcept f l with
          | error e => rw [hml] at h; simp [Except.map] at h
          | ok bs =>
              rw [hml] at h
              simp only [Except.map] at h
              injection h with h
              subst h
              exact List.Forall₂.cons hfa (ih bs hml)

theorem probPlotPointOf_ok (fns : RealFns) (n : ℕ) (p : ℕ × ValidLnPoint)
    (pt : ProbPlotPoint) (h : probPlotPointOf fns n p = .ok pt) :
    pt.empiricalQuantile = blomQuantile n p.1 ∧
    pt.theoreticalQuantile = fns.normInvCDF (blomQuantile n p.1) ∧
    pt.lnValue = p.2.lnValue := by
  unfold probPlotPointOf normalInverseCDF at h
  by_cases hg : blomQuantile n p.1 ≤ 0 ∨ 1 ≤ blomQuantile n p.1
  · rw [if_pos hg] at h
    simp [Except.map] at h
  · rw [if_neg hg] at h
    simp only [Except.map] at h
    injection h with h
    subst h
    exact ⟨rfl, rfl, rfl⟩

theorem generateNPP_ok_inv (fns : RealFns) (data : List ValidLnPoint)
    (plot : NormalProbPlot)
    (h : generateNormalProbabilityPlot fns data = .ok plot) :
    plot.rSquared = plot.regression.rSquared ∧
    linearRegression fns (plot.plotData.map fun point =>
        RegressionPoint.mk point.theoreticalQuantile point.lnValue)
      = .ok plot.regression ∧
    mapExcept (probPlotPointOf fns (lnSorted data).length)
        (lnSorted data).enum = .ok plot.plotData := by
  unfold generateNormalProbabilityPlot at h
  cases hm : mapExcept (probPlotPointOf fns (lnSorted data).length)
      (lnSorted data).enum with
  | error e => rw [hm] at h; simp [Except.bind] at h
  | ok pd =>
      rw [hm] at h
      simp only [Except.bind] at h
      cases hr : linearRegression fns (pd.map fun point =>
          RegressionPoint.mk point.theoreticalQuantile point.lnValue) with
      | error e => rw [hr] at h; simp [Except.map] at h
      | ok reg =>
          rw [hr] at h
          simp only [Except.map] at h
          injection h with h
          subst h
          exact ⟨rfl, hr, rfl⟩

theorem logNormalGoF_ok_inv (fns : RealFns) (emp : List ValidLnPoint)
    (theo : List LnTheoPoint) (params : LogNormalParams) (g : LogNormalGoF)
    (h : logNormalCalculateGoodnessOfFit fns emp theo params = .ok g) :
    ∃ np, generateNormalProbabilityPlot fns emp = .ok np ∧
      g.rSquared = np.rSquared ∧ g.normalProbabilityR2 = np.rSquared ∧
      g.confidenceScore = np.rSquared ∧
      g.isLogNormal = decide ((9 : ℚ)/10 < np.rSquared) := by
  unfold logNormalCalculateGoodnessOfFit at h
  cases hks : kolmogorovSmirnovTest fns (emp.map fun x => x.ccdf)
      (theo.map fun x => x.theoreticalCCDF) with
  | error e => rw [hks] at h; simp [Except.bind] at h
  | ok ks =>
      rw [hks] at h
      simp only [Except.bind] at h
      cases hnp : generateNormalProbabilityPlot fns emp with
      | error e => rw [hnp] at h; simp [Except.map] at h
      | ok np =>
          rw [hnp] at h
          simp only [Except.map] at h
          injection h with h
          subst h
          exact ⟨np, rfl, rfl, rfl, rfl, rfl⟩

theorem forall₂_map_out {α β γ : Type} (f : α → γ) (g : β → γ) :
    ∀ {l₁ : List α} {l₂ : List β},
      List.Forall₂ (fun a b => g b = f a) l₁ l₂ →
        l₂.map g = l₁.map f := by
  intro l₁ l₂ h
  induction h with
  | nil => rfl
  | cons h1 h2 ih => simp [ih, h1]

theorem logNormalAnalyze_isOk (fns : RealFns) (data : List DataPoint)
    (hne : ¬ data.isEmpty = true)
    (hcount : ¬ (filterValidLnData (addLnTransforms fns data)).length < 3)
    (np : NormalProbPlot)
    (hplot : generateNormalProbabilityPlot fns
        (filterValidLnData (addLnTransforms fns data)) = .ok np) :
    ∃ r, logNormalAnalyze fns data = .ok r := by
  unfold logNormalAnalyze
  rw [if_neg hne, if_neg hcount]
  have hlen : ((filterValidLnData (addLnTransforms fns data)).map
      fun item => item.lnValue).length ≠ 0 := by
    rw [List.length_map]; omega
  have hmu : mean ((filterValidLnData (addLnTransforms fns data)).map
      fun item => item.lnValue)
      = .ok ((((filterValidLnData (addLnTransforms fns data)).map
            fun item => item.lnValue).sum)
        / ((((filterValidLnData (addLnTransforms fns data)).map
            fun item => item.lnValue).length : ℚ))) := by
    unfold mean
    rw [if_neg hlen]
  rw [hmu]
  simp only [Except.bind]
  unfold standardDeviation
  rw [if_neg hlen]
  simp only [Except.bind]
  unfold logNormalCalculateGoodnessOfFit
  rw [kolmogorovSmirnovTest_ok fns _ _
    (by simp [lnTheoreticalValues])
    (by rw [List.length_map]; omega)]
  rw [hplot]
  simp only [Except.bind, Except.map]
  exact ⟨_, rfl⟩

/-- C6: whenever `LogNormalAnalyzer.analyze` succeeds, the returned
parameters are the method-of-moments estimates on the natural logs of the
positive values — `mu` is their mean and `sigma` their sample standard
deviation — and every R²-derived goodness-of-fit field (`rSquared`,
`normalProbabilityR2`, `confidenceScore`, and the 0.9-threshold
`isLogNormal` test) is the R² of the regression of `lnValue` on the
Blom-position theoretical normal quantiles of the normal probability plot,
not an R² computed from the CCDF columns. -/
theorem logNormal_moments_plot_spec (fns : RealFns) (data : List DataPoint) :
    ∀ r, logNormalAnalyze fns data = .ok r →
      ∀ lnVals, lnVals = (data.filter fun p => decide (0 < p.value)).map
          (fun p => fns.ln p.value) →
        (r.parameters.mu = lnVals.sum / (lnVals.length : ℚ) ∧
         r.parameters.sigma = fns.sqrt
           ((lnVals.map fun v =>
               (v - lnVals.sum / (lnVals.length : ℚ)) ^ 2).sum
             / ((lnVals.length : ℚ) - 1))) ∧
        ∃ plot,
          generateNormalProbabilityPlot fns
            (filterValidLnData (addLnTransforms fns data)) = .ok plot ∧
          r.goodnessOfFit.rSquared = plot.regression.rSquared ∧
          r.goodnessOfFit.normalProbabilityR2 = plot.regression.rSquared ∧
          r.goodnessOfFit.confidenceScore = plot.regression.rSquared ∧
          r.goodnessOfFit.isLogNormal
            = decide ((9 : ℚ)/10 < plot.regression.rSquared) ∧
          linearRegression fns (plot.plotData.map fun point =>
              RegressionPoint.mk point.theoreticalQuantile point.lnValue)
            = .ok plot.regression ∧
          plot.plotData.map (fun point => point.lnValue)
            = (lnSorted (filterValidLnData (addLnTransforms fns data))).map
                (fun item => item.lnValue) ∧
          ∀ i, ∀ h : i < plot.plotData.length,
            (plot.plotData.get ⟨i, h⟩).empiricalQuantile
              = blomQuantile plot.plotData.length i ∧
            (plot.plotData.get ⟨i, h⟩).theoreticalQuantile
              = fns.normInvCDF (blomQuantile plot.plotData.length i) := by
  intro r hr lnVals hlv
  have hTerm : (filterValidLnData (addLnTransforms fns data)).map
      (fun item => item.lnValue) = lnVals := by
    rw [hlv, filterValidLn_addLn, List.map_map]
    rfl
  unfold logNormalAnalyze at hr
  by_cases hempty : data.isEmpty = true
  · rw [if_pos hempty] at hr
    simp at hr
  · rw [if_neg hempty] at hr
    by_cases hcount :
        (filterValidLnData (addLnTransforms fns data)).length < 3
    · rw [if_pos hcount] at hr
      simp at hr
    · rw [if_neg hcount] at hr
      have hlen : ((filterValidLnData (addLnTransforms fns data)).map
          fun item => item.lnValue).length ≠ 0 := by
        rw [List.length_map]; omega
      cases hmu : mean ((filterValidLnData (addLnTransforms fns data)).map
          fun item => item.lnValue) with
      | error e => rw [hmu] at hr; simp [Except.bind] at hr
      | ok mu =>
      rw [hmu] at hr
      simp only [Except.bind] at hr
      cases hsig : standardDeviation fns
          ((filterValidLnData (addLnTransforms fns data)).map
            fun item => item.lnValue) true with
      | error e => rw [hsig] at hr; simp [Except.bind] at hr
      | ok sigma =>
      rw [hsig] at hr
      simp only [Except.bind] at hr
      cases hgof : logNormalCalculateGoodnessOfFit fns
          (filterValidLnData (addLnTransforms fns data))
          (lnTheoreticalValues fns ⟨mu, sigma⟩
            (filterValidLnData (addLnTransforms fns data)))
          ⟨mu, sigma⟩ with
      | error e => rw [hgof] at hr; simp [Except.bind] at hr
      | ok g =>
      rw [hgof] at hr
      simp only [Except.bind] at hr
      cases hnp : generateNormalProbabilityPlot fns
          (filterValidLnData (addLnTransforms fns data)) with
      | error e => rw [hnp] at hr; simp [Except.map] at hr
      | ok np =>
      rw [hnp] at hr
      simp only [Except.map] at hr
      injection hr with hres
      subst hres
      have hmuval : mu = lnVals.sum / (lnVals.length : ℚ) := by
        unfold mean at hmu
        rw [if_neg hlen] at hmu
        injection hmu with h
        rw [← h, hTerm]
      have hsigval : sigma = fns.sqrt
          ((lnVals.map fun v =>
              (v - lnVals.sum / (lnVals.length : ℚ)) ^ 2).sum
            / ((lnVals.length : ℚ) - 1)) := by
        unfold standardDeviation at hsig
        rw [if_neg hlen] at hsig
        injection hsig with h
        rw [← h, hTerm]
        norm_num
      obtain ⟨np2, hnp2, hg1, hg2, hg3, hg4⟩ := logNormalGoF_ok_inv fns
        (filterValidLnData (addLnTransforms fns data))
        (lnTheoreticalValues fns ⟨mu, sigma⟩
          (filterValidLnData (addLnTransforms fns data)))
        ⟨mu, sigma⟩ g hgof
      have hnpeq : np2 = np := by
        have h2 := hnp2.symm.trans hnp
        injection h2
      rw [hnpeq] at hg1 hg2 hg3 hg4
      obtain ⟨hps, hlr, hmx⟩ := generateNPP_ok_inv fns
        (filterValidLnData (addLnTransforms fns data)) np hnp
      have F := mapExcept_forall₂
        (probPlotPointOf fns
          (lnSorted (filterValidLnData (addLnTransforms fns data))).length)
        (lnSorted (filterValidLnData (addLnTransforms fns data))).enum
        np.plotData hmx
      refine ⟨⟨hmuval, hsigval⟩, np, rfl, ?_, ?_, ?_, ?_, hlr, ?_, ?_⟩
      · show g.rSquared = np.regression.rSquared
        rw [hg1]
        exact hps
      · show g.normalProbabilityR2 = np.regression.rSquared
        rw [hg2]
        exact hps
      · show g.confidenceScore = np.regression.rSquared
        rw [hg3]
        exact hps
      · show g.isLogNormal = decide ((9 : ℚ)/10 < np.regression.rSquared)
        rw [hg4, hps]
      · have F2 : List.Forall₂ (fun a b => b.lnValue = a.2.lnValue)
            (lnSorted (filterValidLnData (addLnTransforms fns data))).enum
            np.plotData :=
          F.imp fun a b h => (probPlotPointOf_ok _ _ _ _ h).2.2
        calc np.plotData.map (fun point => point.lnValue)
            = (lnSorted (filterValidLnData (addLnTransforms fns data))).enum.map
                (fun a => a.2.lnValue) := forall₂_map_out _ _ F2
          _ = ((lnSorted (filterValidLnData (addLnTransforms fns data))).enum.map
                Prod.snd).map (fun item => item.lnValue) := by
              rw [List.map_map]
              rfl
          _ = (lnSorted (filterValidLnData (addLnTransforms fns data))).map
                (fun item => item.lnValue) := by rw [List.enum_map_snd]
      · intro i h
        have hi : i < (lnSorted
            (filterValidLnData (addLnTransforms fns data))).enum.length := by
          rw [F.length_eq]
          exact h
        have hFi := (List.forall₂_iff_get.mp F).2 i hi h
        obtain ⟨he, ht, _⟩ := probPlotPointOf_ok _ _ _ _ hFi
        have hfst : ((lnSorted
            (filterValidLnData (addLnTransforms fns data))).enum.get
              ⟨i, hi⟩).1 = i := by
          simp [List.get_eq_getElem, List.getElem_enum]
        have hnn : np.plotData.length = (lnSorted
            (filterValidLnData (addLnTransforms fns data))).length :=
          F.length_eq.symm.trans (List.enum_length)
        rw [hfst] at he ht
        constructor
        · rw [he, hnn]
        · rw [ht, hnn]

/-- Closed witness for `logNormal_moments_plot_spec`: on a concrete 3-point
dataset the analysis succeeds, `mu` is the mean of the log values, and the
reported R² is the probability-plot regression R². -/
theorem logNormal_moments_plot_spec_witness :
    ∃ r plot, logNormalAnalyze wFns lnData = .ok r ∧
      generateNormalProbabilityPlot wFns
        (filterValidLnData (addLnTransforms wFns lnData)) = .ok plot ∧
      r.parameters.mu
        = (((lnData.filter fun p => decide (0 < p.value)).map
            fun p => wFns.ln p.value).sum)
          / ((((lnData.filter fun p => decide (0 < p.value)).map
            fun p => wFns.ln p.value).length : ℚ)) ∧
      r.goodnessOfFit.rSquared = plot.regression.rSquared ∧
      r.goodnessOfFit.isLogNormal
        = decide ((9 : ℚ)/10 < plot.regression.rSquared) := by
  have hplot : ∃ np, generateNormalProbabilityPlot wFns
      (filterValidLnData (addLnTransforms wFns lnData)) = .ok np := by
    have hV : filterValidLnData (addLnTransforms wFns lnData)
        = [⟨1, 1, 0, 0, 5, 1⟩, ⟨2, 1, 0, 0, 4, 2⟩, ⟨3, 1, 0, 0, 3, 3⟩] := by
      decide
    rw [hV]
    have hsort : lnSorted ([⟨1, 1, 0, 0, 5, 1⟩, ⟨2, 1, 0, 0, 4, 2⟩,
        ⟨3, 1, 0, 0, 3, 3⟩] : List ValidLnPoint)
        = [⟨1, 1, 0, 0, 5, 1⟩, ⟨2, 1, 0, 0, 4, 2⟩, ⟨3, 1, 0, 0, 3, 3⟩] := by
      norm_num [lnSorted, sortWith, orderedInsert]
    unfold generateNormalProbabilityPlot
    rw [hsort]
    have hm : mapExcept (probPlotPointOf wFns
        ([⟨1, 1, 0, 0, 5, 1⟩, ⟨2, 1, 0, 0, 4, 2⟩,
          ⟨3, 1, 0, 0, 3, 3⟩] : List ValidLnPoint).length)
        ([⟨1, 1, 0, 0, 5, 1⟩, ⟨2, 1, 0, 0, 4, 2⟩,
          ⟨3, 1, 0, 0, 3, 3⟩] : List ValidLnPoint).enum
        = .ok [⟨1, 5/26, 5/26, 1, 5⟩, ⟨2, 1/2, 1/2, 2, 4⟩,
            ⟨3, 21/26, 21/26, 3, 3⟩] := by
      norm_num [mapExcept, probPlotPointOf, normalInverseCDF, blomQuantile,
        wFns, List.enum, List.enumFrom, Except.bind, Except.map]
    rw [hm]
    simp only [Except.bind]
    rw [linearRegression_ok wFns _ (by norm_num) (by norm_num [jsAbs])]
    simp only [Except.map]
    exact ⟨_, rfl⟩
  obtain ⟨np, hnp⟩ := hplot
  obtain ⟨r, hr⟩ := logNormalAnalyze_isOk wFns lnData (by decide) (by decide)
    np hnp
  have hspec := logNormal_moments_plot_spec wFns lnData r hr
    ((lnData.filter fun p => decide (0 < p.value)).map
      fun p => wFns.ln p.value) rfl
  obtain ⟨⟨hmu, hsig⟩, plot, hplot2, h1, h2, h3, h4, h5, h6, h7⟩ := hspec
  exact ⟨r, plot, hr, hplot2, hmu, h1, h4⟩
